import Mathlib

/-!
Enhanced-protocol gateway: `src/enhanced.cpp`.

A shallow embedding of the enhanced-protocol codec, the command dispatcher, the
blocking arbitration driver, the deferred response queue and the asynchronous
driver with its completion callbacks, followed by theorems about them.

Conventions of the embedding.

* A `WiFiClient*` is a handle (`Client`); the object behind it is a record of
  the pending inbound bytes, the bytes written so far, the stopped flag and the
  value `availableForWrite()` reports.  `NULL` is `none`.
* The globals `arbitration_client`, `arbitration_start`, `arbitration_address`,
  `arbitration_ongoing`, the send queue and the bytes written to `Serial` are
  the fields of `State`.
* `uint8_t` values are natural numbers below 256; a store into a `uint8_t`
  that can exceed the range carries an explicit `% 256`.  `unsigned long` is
  32 bits wide on the target, the sum in the timeout test is taken `% 2 ^ 32`.
* `millis()`, `Serial.available()` and `Serial.read()` are answered by the
  environment: a clock reading passed as an argument, and for the busy wait of
  the driver a finite list of observations (`BusPoll`).  A run that needs an
  observation beyond the end of the list is still waiting (`Run.waiting`).
* The macros `SYN`, `AVAILABLE_THRESHOLD`, `ARBITRATION_BUFFER_SIZE` and the
  classes `Arbitration` and `EBusState` come from headers that are not part of
  the source file; they are parameters (`Config`, `Collaborators`).
* `DEBUG_LOG` has no effect on the modelled state.
-/

namespace Enhanced

/-! ## Constants and enumerations -/

/-- Marker of the first byte of an encoded unit (`#define M1`). -/
def M1 : Nat := 0b11000000

/-- Marker of the second byte of an encoded unit (`#define M2`). -/
def M2 : Nat := 0b10000000

/-- Bound on the age of an arbitration session, in milliseconds. -/
def ARBITRATION_TIMEOUT_MS : Nat := 2000

/-- Request code `CMD_INIT` of `enum requests`. -/
def CMD_INIT : Nat := 0
/-- Request code `CMD_SEND` of `enum requests`. -/
def CMD_SEND : Nat := 1
/-- Request code `CMD_START` of `enum requests`. -/
def CMD_START : Nat := 2
/-- Request code `CMD_INFO` of `enum requests`. -/
def CMD_INFO : Nat := 3

/-- Response code `RESETTED` of `enum responses`. -/
def RESETTED : Nat := 0x0
/-- Response code `RECEIVED` of `enum responses`. -/
def RECEIVED : Nat := 0x1
/-- Response code `STARTED` of `enum responses`. -/
def STARTED : Nat := 0x2
/-- Response code `INFO` of `enum responses`. -/
def INFO : Nat := 0x3
/-- Response code `FAILED` of `enum responses`. -/
def FAILED : Nat := 0xa
/-- Response code `ERROR_EBUS` of `enum responses`. -/
def ERROR_EBUS : Nat := 0xb
/-- Response code `ERROR_HOST` of `enum responses`. -/
def ERROR_HOST : Nat := 0xc

/-- Error payload `ERR_FRAMING` of `enum errors`. -/
def ERR_FRAMING : Nat := 0x00
/-- Error payload `ERR_OVERRUN` of `enum errors`. -/
def ERR_OVERRUN : Nat := 0x01

/-- Macros used by `enhanced.cpp` whose definitions live in headers outside the
source file. -/
structure Config where
  /-- The bus synchronisation symbol `SYN`. -/
  SYN : Nat
  /-- Least write headroom a client needs before it is written to. -/
  AVAILABLE_THRESHOLD : Nat
  /-- Bound on the number of symbols one blocking arbitration consumes. -/
  ARBITRATION_BUFFER_SIZE : Nat

/-! ## Packet codec -/

/-- Function `decode(b1, b2, data)`: the pair is `(data[0], data[1])`.  Both
values fit a `uint8_t`: the first is masked with `0b1111`, the second is at most
`0b11000000 | 0b00111111`. -/
def decode (b1 b2 : Nat) : Nat × Nat :=
  ((b1 >>> 2) &&& 0b1111, ((b1 &&& 0b11) <<< 6) ||| (b2 &&& 0b00111111))

/-- Function `encode(c, d, data)`: the pair is `(data[0], data[1])`, each stored
into a `uint8_t`. -/
def encode (c d : Nat) : Nat × Nat :=
  ((M1 ||| (c <<< 2) ||| (d >>> 6)) % 256, (M2 ||| (d &&& 0b00111111)) % 256)

/-! ## Clients and global state -/

/-- Identity of a `WiFiClient*`. -/
abbrev Client := Nat

/-- The object behind a `WiFiClient*`. -/
structure WiFiClient where
  /-- Bytes pending on the inbound stream, oldest first. -/
  rx : List Nat
  /-- Bytes written to the client so far, oldest first. -/
  tx : List Nat
  /-- Whether `stop()` has been called. -/
  stopped : Bool
  /-- The value `availableForWrite()` reports. -/
  availableForWrite : Nat

/-- Method `client->read()`: the next pending byte, `none` for `-1`. -/
def WiFiClient.read (w : WiFiClient) : Option Nat × WiFiClient :=
  match w.rx with
  | [] => (none, w)
  | b :: rest => (some b, { w with rx := rest })

/-- Method `client->write(...)`: the bytes are appended to what was written. -/
def WiFiClient.write (w : WiFiClient) (bytes : List Nat) : WiFiClient :=
  { w with tx := w.tx ++ bytes }

/-- Method `client->stop()`. -/
def WiFiClient.stop (w : WiFiClient) : WiFiClient :=
  { w with stopped := true }

/-- Method `client->available()`: a stopped connection has nothing to read. -/
def WiFiClient.available (w : WiFiClient) : Nat :=
  if w.stopped then 0 else w.rx.length

/-- The bytes of a C string literal, as `client->write(const char*)` sends
them. -/
def cstr (s : String) : List Nat := s.toList.map Char.toNat

/-- An entry of the send queue (`struct command`). -/
structure command where
  c : Nat
  d : Nat
deriving DecidableEq, Repr

/-- Capacity of the send queue. -/
def SENDCOMMANDQUEUELENGTH : Nat := 10

/-- The globals of `enhanced.cpp` together with the devices it writes to. -/
structure State where
  /-- Owner of the arbitration session, `none` for `NULL`. -/
  arbitration_client : Option Client
  /-- Clock reading taken when the session was recorded. -/
  arbitration_start : Nat
  /-- Requested master address (`-1` initially). -/
  arbitration_address : Int
  /-- Whether the session was handed over by `startEnhArbitration`. -/
  arbitration_ongoing : Bool
  /-- Content of the queue behind `getSendQueue()`, oldest first. -/
  sendqueue : List command
  /-- The static `lastTime` of `startEnhArbitration`. -/
  lastTime : Nat
  /-- Bytes written to `Serial`, oldest first. -/
  serial_tx : List Nat
  /-- The client objects, by handle. -/
  clients : Client → WiFiClient

/-- Replace the object behind one client handle. -/
def State.setClient (s : State) (client : Client) (w : WiFiClient) : State :=
  { s with clients := Function.update s.clients client w }

/-- Function `send_res(client, c, d)`: the arguments are converted to
`uint8_t`, encoded, and the two bytes are written to the client. -/
def send_res (client : Client) (c d : Nat) (s : State) : State :=
  let data := encode (c % 256) (d % 256)
  s.setClient client ((s.clients client).write [data.1, data.2])

/-! ## Command dispatcher -/

/-- Function `process_cmd(client, c, d)`; `now` is what `millis()` returns. -/
def process_cmd (cfg : Config) (now : Nat) (client : Client) (c d : Nat) (s : State) : State :=
  if c = CMD_INIT then
    send_res client RESETTED 0x0 s
  else if c = CMD_START then
    if d = cfg.SYN then
      { s with arbitration_client := none }
    else if s.arbitration_client ≠ none ∧ s.arbitration_client ≠ some client then
      send_res client ERROR_HOST ERR_FRAMING s
    else
      { s with
        arbitration_client := some client
        arbitration_start := now
        arbitration_address := (d : Int) }
  else if c = CMD_SEND then
    { s with serial_tx := s.serial_tx ++ [d] }
  else if c = CMD_INFO then
    s
  else
    s

/-- Function `read_cmd(client, data)`: `some (data[0], data[1])` when it returns
`true`, `none` when it returns `false`. -/
def read_cmd (client : Client) (s : State) : Option (Nat × Nat) × State :=
  match (s.clients client).read with
  | (none, _) => (none, s)
  | (some b, w1) =>
    if b < 0b10000000 then
      (some (CMD_SEND, b), s.setClient client w1)
    else if b < 0b11000000 then
      (none, s.setClient client (w1.write (cstr "first command signature error")).stop)
    else
      match w1.read with
      | (none, w2) =>
        (none, s.setClient client (w2.write (cstr "second command missing")).stop)
      | (some b2, w2) =>
        if b2 &&& 0b11000000 ≠ 0b10000000 then
          (none, s.setClient client (w2.write (cstr "second command signature error")).stop)
        else
          (some (decode b b2), s.setClient client w2)

/-! ## Blocking arbitration driver -/

/-- Answers of `Arbitration::data`. -/
inductive ArbitrationState where
  | none
  | arbitrating
  | won
  | lost
  | error
deriving DecidableEq, Repr

/-- The classes `Arbitration` (state `Arb`) and `EBusState` (state `Bus`), as
far as `enhanced.cpp` uses them. -/
structure Collaborators (Arb Bus : Type) where
  /-- A default-constructed `Arbitration`. -/
  fresh : Arb
  /-- Method `arbitration.start(busstate, address)`. -/
  start : Arb → Bus → Int → Bool × Arb × Bus
  /-- Method `arbitration.data(busstate, symbol)`. -/
  data : Arb → Bus → Nat → ArbitrationState × Arb × Bus
  /-- Method `busstate.data(symbol)`. -/
  busdata : Bus → Nat → Bus
  /-- Field `busstate._master`. -/
  _master : Bus → Nat
  /-- Field `busstate._byte`. -/
  _byte : Bus → Nat

/-- One observation of the busy wait on `Serial`. -/
inductive BusPoll where
  /-- `Serial.available()` is `0` and `millis()` returns `now`. -/
  | idle (now : Nat)
  /-- `Serial.available()` is not `0` and `Serial.read()` returns `sym`. -/
  | symbol (sym : Nat)
deriving DecidableEq, Repr

/-- The test `millis() > arbitration_start + ARBITRATION_TIMEOUT_MS` in
`unsigned long` arithmetic. -/
def timedOut (now arbitration_start : Nat) : Bool :=
  decide (now > (arbitration_start + ARBITRATION_TIMEOUT_MS) % 2 ^ 32)

/-- What the inner loop `while (Serial.available() == 0)` ends with. -/
inductive Wait where
  /-- The timeout test succeeded. -/
  | timeout
  /-- A symbol is available; `rest` are the observations still to come. -/
  | symbol (sym : Nat) (rest : List BusPoll)
  /-- The observations ran out while `Serial` had nothing. -/
  | blocked

/-- The inner loop `while (Serial.available() == 0) ...` of the driver. -/
def waitSerial (arbitration_start : Nat) : List BusPoll → Wait
  | [] => Wait.blocked
  | BusPoll.idle now :: rest =>
    if timedOut now arbitration_start then Wait.timeout
    else waitSerial arbitration_start rest
  | BusPoll.symbol sym :: rest => Wait.symbol sym rest

/-- Everything `arbitrateEnhClient` works on: the globals, its local
`Arbitration`, the bus state passed by reference, and the filled part of the
buffer `bytes` (its length is `bytesread`). -/
structure Driver (Arb Bus : Type) where
  st : State
  arbitration : Arb
  busstate : Bus
  bytes : List Nat

/-- How the `while (loopcount++ < ARBITRATION_BUFFER_SIZE)` loop is left. -/
inductive Flow (σ : Type) where
  /-- By a `return bytesread` inside the loop. -/
  | ret (d : σ)
  /-- By its condition becoming false. -/
  | next (d : σ)
  /-- Not at all: the observations ran out in the busy wait. -/
  | blocked (d : σ)

/-- Lines 166 to 170: the symbol read is stored as `uint8_t`, given to
`busstate.data` and then to `arbitration.data`. -/
def feed {Arb Bus : Type} (P : Collaborators Arb Bus) (a : Arb) (bus : Bus) (sym : Nat) :
    ArbitrationState × Arb × Bus :=
  P.data a (P.busdata bus (sym % 256)) (sym % 256)

/-- The loop `while (loopcount++ < ARBITRATION_BUFFER_SIZE)`; the first argument
is the number of iterations the condition still admits. -/
def arbitrateLoop {Arb Bus : Type} (P : Collaborators Arb Bus) (client : Client) :
    Nat → List BusPoll → Driver Arb Bus → Flow (Driver Arb Bus)
  | 0, _, d => Flow.next d
  | n + 1, polls, d =>
    match waitSerial d.st.arbitration_start polls with
    | Wait.blocked => Flow.blocked d
    | Wait.timeout =>
      Flow.ret { d with
        st := { send_res client ERROR_EBUS ERR_FRAMING d.st with arbitration_client := none } }
    | Wait.symbol sym rest =>
      match feed P d.arbitration d.busstate sym with
      | (ArbitrationState.none, a, bus) =>
        Flow.ret { st := { d.st with arbitration_client := none }
                   arbitration := a, busstate := bus, bytes := d.bytes ++ [sym % 256] }
      | (ArbitrationState.arbitrating, a, bus) =>
        arbitrateLoop P client n rest
          { st := d.st, arbitration := a, busstate := bus, bytes := d.bytes ++ [sym % 256] }
      | (ArbitrationState.won, a, bus) =>
        Flow.ret { st := { send_res client STARTED (P._master bus) d.st with
                           arbitration_client := none }
                   arbitration := a, busstate := bus, bytes := d.bytes ++ [sym % 256] }
      | (ArbitrationState.lost, a, bus) =>
        Flow.ret { st := { send_res client RECEIVED (P._byte bus)
                             (send_res client FAILED (P._master bus) d.st) with
                           arbitration_client := none }
                   arbitration := a, busstate := bus, bytes := d.bytes ++ [sym % 256] }
      | (ArbitrationState.error, a, bus) =>
        Flow.ret { st := { d.st with arbitration_client := none }
                   arbitration := a, busstate := bus, bytes := d.bytes ++ [sym % 256] }

/-- Result of running a function against a finite list of observations. -/
inductive Run (σ : Type) where
  /-- The function returned. -/
  | returned (d : σ)
  /-- The function is still in its busy wait, having reached `d`. -/
  | waiting (d : σ)

/-- Lines 194 to 198: the timeout test after the `if (arbitration.start(...))`
block; `now` is what `millis()` returns there. -/
def timeoutCheck (client : Client) (now : Nat) (s : State) : State :=
  if s.arbitration_client ≠ none ∧ timedOut now s.arbitration_start = true then
    { send_res client ERROR_EBUS ERR_FRAMING s with arbitration_client := none }
  else
    s

/-- Function `arbitrateEnhClient(client, busstate, bytes)`.  The value returned
by the C function is the length of `bytes` in the result.  `polls` answers the
busy wait, `now` the call of `millis()` in line 194. -/
def arbitrateEnhClient {Arb Bus : Type} (cfg : Config) (P : Collaborators Arb Bus)
    (client : Client) (busstate : Bus) (polls : List BusPoll) (now : Nat) (s : State) :
    Run (Driver Arb Bus) :=
  if cfg.AVAILABLE_THRESHOLD ≤ (s.clients client).availableForWrite
      ∧ s.arbitration_client = some client then
    match P.start P.fresh busstate s.arbitration_address with
    | (true, a, bus) =>
      match arbitrateLoop P client cfg.ARBITRATION_BUFFER_SIZE polls
          { st := s, arbitration := a, busstate := bus, bytes := [] } with
      | Flow.ret d => Run.returned d
      | Flow.blocked d => Run.waiting d
      | Flow.next d =>
        Run.returned { d with
          st := timeoutCheck client now { d.st with arbitration_client := none } }
    | (false, a, bus) =>
      Run.returned { st := timeoutCheck client now s
                     arbitration := a, busstate := bus, bytes := [] }
  else
    Run.returned { st := s, arbitration := P.fresh, busstate := busstate, bytes := [] }

/-! ## Command loop of a client -/

/-- The loop of `handleEnhClient`.  The first argument bounds the number of
iterations, the second counts them; `clock i` is what `millis()` returns when
iteration `i` runs `process_cmd`. -/
def handleLoop (cfg : Config) (clock : Nat → Nat) (client : Client) :
    Nat → Nat → State → State
  | 0, _, s => s
  | fuel + 1, i, s =>
    if (s.clients client).available ≠ 0 then
      match read_cmd client s with
      | (some data, s1) =>
        handleLoop cfg clock client fuel (i + 1)
          (process_cmd cfg (clock i) client data.1 data.2 s1)
      | (none, s1) => handleLoop cfg clock client fuel (i + 1) s1
    else
      s

/-- Function `handleEnhClient(client)`.  Every iteration with something
available consumes a pending byte or stops the client, so the number of pending
bytes bounds the number of iterations (`handleEnhClient_exits`). -/
def handleEnhClient (cfg : Config) (clock : Nat → Nat) (client : Client) (s : State) : State :=
  handleLoop cfg clock client (s.clients client).rx.length 0 s

/-! ## Deferred responses and the asynchronous driver -/

/-- Function `queue_command(c, d)`: `xQueueSendToBack` with a wait of `0` adds
the entry at the back, and drops it when the queue is full. -/
def queue_command (c d : Nat) (s : State) : State :=
  if s.sendqueue.length < SENDCOMMANDQUEUELENGTH then
    { s with sendqueue := s.sendqueue ++ [{ c := c, d := d }] }
  else
    s

/-- The loop `while (xQueueReceive(getSendQueue(), &c, 0) > 0) send_res(...)`:
the entries of the queue (the first argument) are taken from the front one by
one and sent. -/
def drainQueue (client : Client) : List command → State → State
  | [], s => { s with sendqueue := [] }
  | e :: rest, s => drainQueue client rest (send_res client e.c e.d { s with sendqueue := rest })

/-- Function `pushEnhClient(client, B)`: the returned `int` and the state. -/
def pushEnhClient (cfg : Config) (client : Client) (B : Nat) (s : State) : Nat × State :=
  if cfg.AVAILABLE_THRESHOLD ≤ (s.clients client).availableForWrite then
    if s.arbitration_ongoing = true then
      (1, drainQueue client s.sendqueue s)
    else
      (1, send_res client RECEIVED B s)
  else
    (0, s)

/-- Result of `startEnhArbitration`: the pointer it returns, the two objects it
got by reference, and the globals. -/
structure Handoff (Arb Bus : Type) where
  client : Option Client
  arbitration : Arb
  busState : Bus
  st : State

/-- The difference `now - lastTime` of two `unsigned long` values. -/
def ulongSub (now lastTime : Nat) : Nat :=
  (now % 2 ^ 32 + 2 ^ 32 - lastTime % 2 ^ 32) % 2 ^ 32

/-- Function `startEnhArbitration(arbitration, busState)`; `now` is what
`millis()` returns.  The local `a` is `false` throughout (the assignment
`a=true` is commented out); the static `amount` is never used. -/
def startEnhArbitration {Arb Bus : Type} (P : Collaborators Arb Bus) (now : Nat)
    (arbitration : Arb) (busState : Bus) (s : State) : Handoff Arb Bus :=
  let delta := ulongSub now s.lastTime
  let a := false
  let s1 := if delta > 500 then { s with lastTime := now } else s
  if (s1.arbitration_client ≠ none ∨ a = true) ∧ s1.arbitration_ongoing = false then
    match P.start arbitration busState s1.arbitration_address with
    | (true, arb, bus) =>
      { client := s1.arbitration_client, arbitration := arb, busState := bus
        st := { s1 with arbitration_ongoing := true } }
    | (false, arb, bus) =>
      { client := none, arbitration := arb, busState := bus, st := s1 }
  else
    { client := none, arbitration := arbitration, busState := busState, st := s1 }

/-- Function `enhArbitrationWon(client, master)`. -/
def enhArbitrationWon (_client : Client) (master : Nat) (s : State) : State :=
  queue_command STARTED master { s with arbitration_client := none, arbitration_ongoing := false }

/-- Function `enhArbitrationLost(client, master, nextsymbol)`. -/
def enhArbitrationLost (_client : Client) (master nextsymbol : Nat) (s : State) : State :=
  queue_command RECEIVED nextsymbol
    (queue_command FAILED master
      { s with arbitration_client := none, arbitration_ongoing := false })

/-- Function `enhArbitrationError(client)`. -/
def enhArbitrationError (_client : Client) (s : State) : State :=
  { queue_command ERROR_EBUS ERR_FRAMING s with
    arbitration_client := none, arbitration_ongoing := false }

/-! ## Vocabulary for statements about the driver -/

/-- The symbols among the observations, in the order they are read. -/
def symbolsOf : List BusPoll → List Nat
  | [] => []
  | BusPoll.idle _ :: rest => symbolsOf rest
  | BusPoll.symbol sym :: rest => sym :: symbolsOf rest

/-- No idle observation of the list passes the timeout test against
`arbitration_start`. -/
def quiet (arbitration_start : Nat) : List BusPoll → Bool
  | [] => true
  | BusPoll.idle now :: rest => !timedOut now arbitration_start && quiet arbitration_start rest
  | BusPoll.symbol _ :: rest => quiet arbitration_start rest

/-- Feeding the symbols one after the other (`feed`) as long as the primitive
answers `arbitrating`: the primitive and the bus state reached after the last
symbol, `none` when some answer is not `arbitrating`. -/
def feedAll {Arb Bus : Type} (P : Collaborators Arb Bus) : Arb → Bus → List Nat → Option (Arb × Bus)
  | a, bus, [] => some (a, bus)
  | a, bus, sym :: rest =>
    match feed P a bus sym with
    | (ArbitrationState.arbitrating, a1, bus1) => feedAll P a1 bus1 rest
    | _ => none

/-- The globals after the `switch` of lines 170 to 190 for an answer `r` other
than `arbitrating`, where `bus` is the bus state `arbitration.data` leaves. -/
def afterSwitch {Arb Bus : Type} (P : Collaborators Arb Bus) (client : Client)
    (r : ArbitrationState) (bus : Bus) (s : State) : State :=
  match r with
  | ArbitrationState.won =>
    { send_res client STARTED (P._master bus) s with arbitration_client := none }
  | ArbitrationState.lost =>
    { send_res client RECEIVED (P._byte bus) (send_res client FAILED (P._master bus) s) with
      arbitration_client := none }
  | _ => { s with arbitration_client := none }

/-- The driver state with `arbitration_ongoing` set to `b`. -/
def Driver.withOngoing {Arb Bus : Type} (b : Bool) (d : Driver Arb Bus) : Driver Arb Bus :=
  { d with st := { d.st with arbitration_ongoing := b } }

/-- Apply a function to the state a loop is left with. -/
def Flow.map {σ τ : Type} (f : σ → τ) : Flow σ → Flow τ
  | Flow.ret d => Flow.ret (f d)
  | Flow.next d => Flow.next (f d)
  | Flow.blocked d => Flow.blocked (f d)

/-- Apply a function to the state a run has reached. -/
def Run.map {σ τ : Type} (f : σ → τ) : Run σ → Run τ
  | Run.returned d => Run.returned (f d)
  | Run.waiting d => Run.waiting (f d)

/-- The bytes `send_res` writes for the entries of a list, one entry after the
other. -/
def encodeAll : List command → List Nat
  | [] => []
  | e :: rest =>
    (encode (e.c % 256) (e.d % 256)).1 :: (encode (e.c % 256) (e.d % 256)).2 :: encodeAll rest

/-- One call of an entry point of `enhanced.cpp`, as a relation between the
globals before and after the call. -/
inductive Step (cfg : Config) : State → State → Prop where
  | cmd (s : State) (now : Nat) (client : Client) (c d : Nat) :
      Step cfg s (process_cmd cfg now client c d s)
  | start {Arb Bus : Type} (P : Collaborators Arb Bus) (now : Nat) (arbitration : Arb)
      (busState : Bus) (s : State) :
      Step cfg s (startEnhArbitration P now arbitration busState s).st
  | arbitrate {Arb Bus : Type} (P : Collaborators Arb Bus) (client : Client) (busstate : Bus)
      (polls : List BusPoll) (now : Nat) (s : State) (d : Driver Arb Bus) :
      arbitrateEnhClient cfg P client busstate polls now s = Run.returned d → Step cfg s d.st
  | push (s : State) (client : Client) (B : Nat) : Step cfg s (pushEnhClient cfg client B s).2
  | won (s : State) (client : Client) (master : Nat) : Step cfg s (enhArbitrationWon client master s)
  | lost (s : State) (client : Client) (master nextsymbol : Nat) :
      Step cfg s (enhArbitrationLost client master nextsymbol s)
  | error (s : State) (client : Client) : Step cfg s (enhArbitrationError client s)

/-! ## Sample data -/

/-- Sample values of the macros: the eBUS synchronisation symbol, a headroom of
two bytes, three symbols per attempt. -/
def sampleConfig : Config :=
  { SYN := 0xAA, AVAILABLE_THRESHOLD := 2, ARBITRATION_BUFFER_SIZE := 3 }

/-- A connected client with nothing pending and room for 64 bytes. -/
def quietClient : WiFiClient :=
  { rx := [], tx := [], stopped := false, availableForWrite := 64 }

/-- The state the globals are initialised to, with every client quiet. -/
def initial : State :=
  { arbitration_client := none
    arbitration_start := 0
    arbitration_address := -1
    arbitration_ongoing := false
    sendqueue := []
    lastTime := 0
    serial_tx := []
    clients := fun _ => quietClient }

/-- A state in which client `1` owns the session for address `0x31` since
clock reading `100`. -/
def ownedByOne : State :=
  { initial with
    arbitration_client := some 1
    arbitration_start := 100
    arbitration_address := 0x31 }

/-- A scripted arbitration primitive: `start` answers `ok`, `data` gives the
answers of the script one after the other (`error` once it is used up).  The bus
state is the pair of `_master` and `_byte`; `busstate.data` records the symbol
as `_byte`. -/
def scripted (ok : Bool) (script : List ArbitrationState) :
    Collaborators (List ArbitrationState) (Nat × Nat) :=
  { fresh := script
    start := fun a bus _ => (ok, a, bus)
    data := fun a bus _ =>
      match a with
      | [] => (ArbitrationState.error, [], bus)
      | r :: rest => (r, rest, bus)
    busdata := fun bus sym => (bus.1, sym)
    _master := fun bus => bus.1
    _byte := fun bus => bus.2 }

/-- The state `initial` with the bytes `bytes` pending on client `1`. -/
def pendingOnOne (bytes : List Nat) : State :=
  initial.setClient 1 { quietClient with rx := bytes }

/-- A primitive whose state counts the calls of `start`; `start` succeeds and
`data` answers `won`.  The bus state is as for `scripted`. -/
def counting : Collaborators Nat (Nat × Nat) :=
  { fresh := 0
    start := fun a bus _ => (true, a + 1, bus)
    data := fun a bus _ => (ArbitrationState.won, a, bus)
    busdata := fun bus sym => (bus.1, sym)
    _master := fun bus => bus.1
    _byte := fun bus => bus.2 }

/-- The state `ownedByOne` after the session was handed to the asynchronous
driver. -/
def handedOver : State :=
  { ownedByOne with arbitration_ongoing := true }

/-- The state after the hand-over of `ownedByOne` was answered by
`enhArbitrationWon` with master `0x35`. -/
def afterWon : State :=
  enhArbitrationWon 1 0x35
    (startEnhArbitration (scripted true []) 150 [] (0x35, 0) ownedByOne).st

/-! ## Helper lemmas -/

theorem setClient_clients_same (s : State) (c : Client) (w : WiFiClient) :
    (s.setClient c w).clients c = w := by
  simp [State.setClient]

theorem setClient_clients_other (s : State) (c k : Client) (w : WiFiClient) (h : k ≠ c) :
    (s.setClient c w).clients k = s.clients k := by
  simp [State.setClient, Function.update_noteq h]

/-! ## Packet codec -/

set_option maxRecDepth 100000 in
/-- C1: for every code `c` with `0 ≤ c ≤ 15` and every 8-bit value `d`, decoding
the two bytes produced by `encode c d` gives back `(c, d)`. -/
theorem decode_encode (c d : Nat) (hc : c ≤ 15) (hd : d < 256) :
    decode (encode c d).1 (encode c d).2 = (c, d) := by
  have key : ∀ c < 16, ∀ d < 256, decode (encode c d).1 (encode c d).2 = (c, d) := by
    decide
  exact key c (by omega) d hd

/-- Witness of `decode_encode` at the code `ERROR_HOST` and the data `0xB5`. -/
theorem decode_encode_witness :
    decode (encode 0xc 0xB5).1 (encode 0xc 0xB5).2 = (0xc, 0xB5) :=
  decode_encode 0xc 0xB5 (by decide) (by decide)

/-! ## Command dispatcher: `CMD_START` -/

/-- C2: while client `A` owns the session, a `CMD_START` of another client `B`
with data other than `SYN` leaves `arbitration_client`, `arbitration_address`
and `arbitration_start` as they are, appends exactly the two bytes of the
encoded `ERROR_HOST`/`ERR_FRAMING` response (`0xF0 0x80`) to what was written to
`B`, and writes nothing to `A`. -/
theorem process_cmd_start_conflict (cfg : Config) (now : Nat) (A B : Client) (d : Nat)
    (s : State) (hown : s.arbitration_client = some A) (hAB : B ≠ A) (hd : d ≠ cfg.SYN) :
    (process_cmd cfg now B CMD_START d s).arbitration_client = s.arbitration_client
    ∧ (process_cmd cfg now B CMD_START d s).arbitration_address = s.arbitration_address
    ∧ (process_cmd cfg now B CMD_START d s).arbitration_start = s.arbitration_start
    ∧ ((process_cmd cfg now B CMD_START d s).clients B).tx
        = (s.clients B).tx ++ [(encode ERROR_HOST ERR_FRAMING).1, (encode ERROR_HOST ERR_FRAMING).2]
    ∧ [(encode ERROR_HOST ERR_FRAMING).1, (encode ERROR_HOST ERR_FRAMING).2] = [0xF0, 0x80]
    ∧ ((process_cmd cfg now B CMD_START d s).clients A).tx = (s.clients A).tx := by
  have hAB2 : A ≠ B := fun h => hAB h.symm
  have hstep : process_cmd cfg now B CMD_START d s = send_res B ERROR_HOST ERR_FRAMING s := by
    simp [process_cmd, CMD_START, CMD_INIT, hd, hown, hAB2]
  rw [hstep]
  refine ⟨rfl, rfl, rfl, ?_, by decide, ?_⟩
  · simp [send_res, setClient_clients_same, WiFiClient.write, ERROR_HOST, ERR_FRAMING]
  · simp [send_res, setClient_clients_other _ _ _ _ hAB2]

/-- Witness of `process_cmd_start_conflict`: client `2` asks for address `0x33`
while client `1` owns the session. -/
theorem process_cmd_start_conflict_witness :
    (process_cmd sampleConfig 250 2 CMD_START 0x33 ownedByOne).arbitration_client
        = ownedByOne.arbitration_client
    ∧ (process_cmd sampleConfig 250 2 CMD_START 0x33 ownedByOne).arbitration_address
        = ownedByOne.arbitration_address
    ∧ (process_cmd sampleConfig 250 2 CMD_START 0x33 ownedByOne).arbitration_start
        = ownedByOne.arbitration_start
    ∧ ((process_cmd sampleConfig 250 2 CMD_START 0x33 ownedByOne).clients 2).tx
        = (ownedByOne.clients 2).tx
            ++ [(encode ERROR_HOST ERR_FRAMING).1, (encode ERROR_HOST ERR_FRAMING).2]
    ∧ [(encode ERROR_HOST ERR_FRAMING).1, (encode ERROR_HOST ERR_FRAMING).2] = [0xF0, 0x80]
    ∧ ((process_cmd sampleConfig 250 2 CMD_START 0x33 ownedByOne).clients 1).tx
        = (ownedByOne.clients 1).tx :=
  process_cmd_start_conflict sampleConfig 250 1 2 0x33 ownedByOne rfl (by decide) (by decide)

/-- C3, as stated, fails: client `1` owns the session since clock reading `100`;
its repeated `CMD_START` at clock reading `250` moves `arbitration_start` to
`250`. -/
theorem process_cmd_start_repeat_resets_start :
    ownedByOne.arbitration_client = some 1
    ∧ (0x31 : Nat) ≠ sampleConfig.SYN
    ∧ ownedByOne.arbitration_start = 100
    ∧ (process_cmd sampleConfig 250 1 CMD_START 0x31 ownedByOne).arbitration_start = 250
    ∧ (process_cmd sampleConfig 250 1 CMD_START 0x31 ownedByOne).arbitration_start
        ≠ ownedByOne.arbitration_start := by
  decide

/-- C3, amended: while client `A` owns the session, its `CMD_START` with data
`d` other than `SYN` sets `arbitration_start` to the current clock reading and
`arbitration_address` to `d`, keeps `A` as the owner and changes nothing else
(no reply is written); the timestamp stays what it was exactly when the clock
still reads it. -/
theorem process_cmd_start_repeat (cfg : Config) (now : Nat) (A : Client) (d : Nat)
    (s : State) (hown : s.arbitration_client = some A) (hd : d ≠ cfg.SYN) :
    process_cmd cfg now A CMD_START d s
        = { s with arbitration_start := now, arbitration_address := (d : Int) }
    ∧ ((process_cmd cfg now A CMD_START d s).arbitration_start = s.arbitration_start
        ↔ now = s.arbitration_start) := by
  have hstep : process_cmd cfg now A CMD_START d s
      = { s with arbitration_start := now, arbitration_address := (d : Int) } := by
    simp [process_cmd, CMD_START, CMD_INIT, hd, hown]
  rw [hstep]
  exact ⟨rfl, Iff.rfl⟩

/-- Witness of `process_cmd_start_repeat`: client `1` repeats its request with
another address at clock reading `250`. -/
theorem process_cmd_start_repeat_witness :
    process_cmd sampleConfig 250 1 CMD_START 0x33 ownedByOne
        = { ownedByOne with arbitration_start := 250, arbitration_address := ((0x33 : Nat) : Int) }
    ∧ ((process_cmd sampleConfig 250 1 CMD_START 0x33 ownedByOne).arbitration_start
          = ownedByOne.arbitration_start
        ↔ 250 = ownedByOne.arbitration_start) :=
  process_cmd_start_repeat sampleConfig 250 1 0x33 ownedByOne rfl (by decide)

/-- C4, at the failing input: client `1` owns the session and client `2` sends
`CMD_START` with `SYN`; the session of client `1` is emptied, where the claim
says `arbitration_client` is left unchanged.  No reply is written. -/
theorem process_cmd_cancel_clears_other :
    ownedByOne.arbitration_client = some 1
    ∧ (process_cmd sampleConfig 250 2 CMD_START sampleConfig.SYN ownedByOne).arbitration_client
        = none
    ∧ ((process_cmd sampleConfig 250 2 CMD_START sampleConfig.SYN ownedByOne).clients 1).tx = []
    ∧ ((process_cmd sampleConfig 250 2 CMD_START sampleConfig.SYN ownedByOne).clients 2).tx = [] := by
  decide

/-! ## Command dispatcher: `read_cmd` -/

/-- C5: when the first byte read is `b1 ≥ 0xC0` and the second read yields
nothing, or yields a byte `b2` with `(b2 & 0xC0) ≠ 0x80`, `read_cmd` returns
`false` (no unit), has consumed the bytes it read, has written a diagnostic
text to the client ("second command missing", respectively "second command
signature error") and has stopped the client; nothing else changes. -/
theorem read_cmd_second_byte_fault (client : Client) (s : State) (b1 : Nat) (tl : List Nat)
    (hrx : (s.clients client).rx = b1 :: tl) (hb1 : 0xC0 ≤ b1)
    (hbad : tl = [] ∨ ∃ b2 rest, tl = b2 :: rest ∧ b2 &&& 0xC0 ≠ 0x80) :
    read_cmd client s
      = (none, s.setClient client
          { s.clients client with
            rx := tl.tail
            tx := (s.clients client).tx
              ++ (if tl = [] then cstr "second command missing"
                  else cstr "second command signature error")
            stopped := true }) := by
  have h1 : ¬ b1 < 128 := by omega
  have h2 : ¬ b1 < 192 := by omega
  rcases hbad with htl | ⟨b2, rest, htl, hb2⟩
  · subst htl
    simp [read_cmd, WiFiClient.read, hrx, h1, h2, WiFiClient.write, WiFiClient.stop]
  · subst htl
    simp [read_cmd, WiFiClient.read, hrx, h1, h2, hb2, WiFiClient.write, WiFiClient.stop]

/-- Witness of `read_cmd_second_byte_fault`: the byte `0xC0` alone, and the
byte `0xC0` followed by `0x41` (then `0x07`, which stays pending). -/
theorem read_cmd_second_byte_fault_witness :
    read_cmd 1 (pendingOnOne [0xC0])
      = (none, (pendingOnOne [0xC0]).setClient 1
          { (pendingOnOne [0xC0]).clients 1 with
            rx := ([] : List Nat).tail
            tx := ((pendingOnOne [0xC0]).clients 1).tx
              ++ (if ([] : List Nat) = [] then cstr "second command missing"
                  else cstr "second command signature error")
            stopped := true })
    ∧ read_cmd 1 (pendingOnOne [0xC0, 0x41, 0x07])
      = (none, (pendingOnOne [0xC0, 0x41, 0x07]).setClient 1
          { (pendingOnOne [0xC0, 0x41, 0x07]).clients 1 with
            rx := [0x41, 0x07].tail
            tx := ((pendingOnOne [0xC0, 0x41, 0x07]).clients 1).tx
              ++ (if [0x41, 0x07] = [] then cstr "second command missing"
                  else cstr "second command signature error")
            stopped := true }) :=
  ⟨read_cmd_second_byte_fault 1 (pendingOnOne [0xC0]) 0xC0 []
      (by simp [pendingOnOne, State.setClient]) (by decide) (Or.inl rfl),
   read_cmd_second_byte_fault 1 (pendingOnOne [0xC0, 0x41, 0x07]) 0xC0 [0x41, 0x07]
      (by simp [pendingOnOne, State.setClient]) (by decide)
      (Or.inr ⟨0x41, [0x07], rfl, by decide⟩)⟩

/-- C6: when the first byte read is `b` with `0x80 ≤ b ≤ 0xBF`, `read_cmd`
returns `false` (no unit), has written the diagnostic text "first command
signature error" to the client and has stopped it; of the inbound stream only
`b` is consumed, every later byte is still pending; nothing else changes. -/
theorem read_cmd_stray_continuation (client : Client) (s : State) (b : Nat) (rest : List Nat)
    (hrx : (s.clients client).rx = b :: rest) (hlo : 0x80 ≤ b) (hhi : b ≤ 0xBF) :
    read_cmd client s
      = (none, s.setClient client
          { s.clients client with
            rx := rest
            tx := (s.clients client).tx ++ cstr "first command signature error"
            stopped := true }) := by
  have h1 : ¬ b < 128 := by omega
  have h2 : b < 192 := by omega
  simp [read_cmd, WiFiClient.read, hrx, h1, h2, WiFiClient.write, WiFiClient.stop]

/-- Witness of `read_cmd_stray_continuation`: the byte `0x85` followed by
`0x07`. -/
theorem read_cmd_stray_continuation_witness :
    read_cmd 1 (pendingOnOne [0x85, 0x07])
      = (none, (pendingOnOne [0x85, 0x07]).setClient 1
          { (pendingOnOne [0x85, 0x07]).clients 1 with
            rx := [0x07]
            tx := ((pendingOnOne [0x85, 0x07]).clients 1).tx
              ++ cstr "first command signature error"
            stopped := true }) :=
  read_cmd_stray_continuation 1 (pendingOnOne [0x85, 0x07]) 0x85 [0x07]
    (by simp [pendingOnOne, State.setClient]) (by decide) (by decide)

/-- C7: when the first byte read is `b < 0x80`, `read_cmd` returns `true` with
the unit `(CMD_SEND, b)`; exactly that one byte is consumed from the inbound
stream, and nothing else changes: nothing is written to the client and it is
not stopped. -/
theorem read_cmd_shorthand (client : Client) (s : State) (b : Nat) (rest : List Nat)
    (hrx : (s.clients client).rx = b :: rest) (hb : b < 0x80) :
    read_cmd client s
      = (some (CMD_SEND, b), s.setClient client { s.clients client with rx := rest }) := by
  simp [read_cmd, WiFiClient.read, hrx, hb]

/-- Witness of `read_cmd_shorthand`: the byte `0x10` followed by `0x07`. -/
theorem read_cmd_shorthand_witness :
    read_cmd 1 (pendingOnOne [0x10, 0x07])
      = (some (CMD_SEND, 0x10), (pendingOnOne [0x10, 0x07]).setClient 1
          { (pendingOnOne [0x10, 0x07]).clients 1 with rx := [0x07] }) :=
  read_cmd_shorthand 1 (pendingOnOne [0x10, 0x07]) 0x10 [0x07]
    (by simp [pendingOnOne, State.setClient]) (by decide)

/-! ## Blocking arbitration driver: lemmas on the loops -/

theorem waitSerial_idle (t0 now : Nat) (rest : List BusPoll) (h : timedOut now t0 = false) :
    waitSerial t0 (BusPoll.idle now :: rest) = waitSerial t0 rest := by
  simp [waitSerial, h]

theorem arbitrateLoop_idle {Arb Bus : Type} (P : Collaborators Arb Bus) (client : Client)
    (n now : Nat) (rest : List BusPoll) (d : Driver Arb Bus)
    (h : timedOut now d.st.arbitration_start = false) :
    arbitrateLoop P client n (BusPoll.idle now :: rest) d = arbitrateLoop P client n rest d := by
  cases n with
  | zero => simp [arbitrateLoop]
  | succ n => rw [arbitrateLoop, arbitrateLoop, waitSerial_idle _ _ _ h]

theorem arbitrateLoop_arbitrating {Arb Bus : Type} (P : Collaborators Arb Bus) (client : Client)
    (n sym : Nat) (rest : List BusPoll) (d : Driver Arb Bus) (a : Arb) (bus : Bus)
    (h : feed P d.arbitration d.busstate sym = (ArbitrationState.arbitrating, a, bus)) :
    arbitrateLoop P client (n + 1) (BusPoll.symbol sym :: rest) d
      = arbitrateLoop P client n rest
          { st := d.st, arbitration := a, busstate := bus, bytes := d.bytes ++ [sym % 256] } := by
  rw [arbitrateLoop]
  simp only [waitSerial, h]

theorem arbitrateLoop_terminal {Arb Bus : Type} (P : Collaborators Arb Bus) (client : Client)
    (n sym : Nat) (rest : List BusPoll) (d : Driver Arb Bus) (r : ArbitrationState) (a : Arb)
    (bus : Bus) (h : feed P d.arbitration d.busstate sym = (r, a, bus))
    (hr : r ≠ ArbitrationState.arbitrating) :
    arbitrateLoop P client (n + 1) (BusPoll.symbol sym :: rest) d
      = Flow.ret { st := afterSwitch P client r bus d.st, arbitration := a, busstate := bus
                   bytes := d.bytes ++ [sym % 256] } := by
  rw [arbitrateLoop]
  simp only [waitSerial, h]
  cases r <;> simp_all [afterSwitch]

theorem feedAll_cons {Arb Bus : Type} (P : Collaborators Arb Bus) (a : Arb) (bus : Bus)
    (sym : Nat) (rest : List Nat) (res : Arb × Bus)
    (h : feedAll P a bus (sym :: rest) = some res) :
    ∃ a1 bus1, feed P a bus sym = (ArbitrationState.arbitrating, a1, bus1)
      ∧ feedAll P a1 bus1 rest = some res := by
  rw [feedAll] at h
  split at h
  · rename_i a1 bus1 hfeed
    exact ⟨a1, bus1, hfeed, h⟩
  · exact absurd h (by simp)

/-- The loop over a stretch of observations without timeout whose symbols are
all answered `arbitrating`, followed by a symbol with a terminal answer. -/
theorem arbitrateLoop_run_terminal {Arb Bus : Type} (P : Collaborators Arb Bus)
    (client : Client) (last : Nat) (extra : List BusPoll) (r : ArbitrationState)
    (a1 a2 : Arb) (bus1 bus2 : Bus) (hlast : feed P a1 bus1 last = (r, a2, bus2))
    (hr : r ≠ ArbitrationState.arbitrating) :
    ∀ (pre : List BusPoll) (n : Nat) (d : Driver Arb Bus),
      quiet d.st.arbitration_start pre = true →
      feedAll P d.arbitration d.busstate (symbolsOf pre) = some (a1, bus1) →
      (symbolsOf pre).length < n →
      arbitrateLoop P client n (pre ++ BusPoll.symbol last :: extra) d
        = Flow.ret { st := afterSwitch P client r bus2 d.st, arbitration := a2, busstate := bus2
                     bytes := d.bytes ++ (symbolsOf pre ++ [last]).map (fun x => x % 256) } := by
  intro pre
  induction pre with
  | nil =>
    intro n d _ hfeed hlen
    obtain ⟨m, rfl⟩ : ∃ m, n = m + 1 := ⟨n - 1, by simp [symbolsOf] at hlen; omega⟩
    simp only [symbolsOf, feedAll, Option.some.injEq, Prod.mk.injEq] at hfeed
    obtain ⟨ha, hb⟩ := hfeed
    rw [← ha, ← hb] at hlast
    simpa [symbolsOf] using arbitrateLoop_terminal P client m last extra d r a2 bus2 hlast hr
  | cons p pre ih =>
    intro n d hq hfeed hlen
    cases p with
    | idle now =>
      simp only [quiet, Bool.and_eq_true, Bool.not_eq_true_eq_eq_false] at hq
      simp only [symbolsOf] at hfeed hlen ⊢
      rw [List.cons_append, arbitrateLoop_idle P client n now _ d hq.1]
      exact ih n d hq.2 hfeed hlen
    | symbol sym =>
      simp only [quiet] at hq
      simp only [symbolsOf, List.length_cons] at hfeed hlen
      obtain ⟨m, rfl⟩ : ∃ m, n = m + 1 := ⟨n - 1, by omega⟩
      obtain ⟨a, bus, hstep, hrest⟩ := feedAll_cons P _ _ _ _ _ hfeed
      rw [List.cons_append, arbitrateLoop_arbitrating P client m sym _ d a bus hstep]
      rw [ih m { st := d.st, arbitration := a, busstate := bus, bytes := d.bytes ++ [sym % 256] }
        hq hrest (by omega)]
      simp [symbolsOf]

/-- The loop over a stretch of observations without timeout that holds as many
symbols as the loop admits, all answered `arbitrating`. -/
theorem arbitrateLoop_run_exhausted {Arb Bus : Type} (P : Collaborators Arb Bus)
    (client : Client) (extra : List BusPoll) (a1 : Arb) (bus1 : Bus) :
    ∀ (pre : List BusPoll) (n : Nat) (d : Driver Arb Bus),
      quiet d.st.arbitration_start pre = true →
      feedAll P d.arbitration d.busstate (symbolsOf pre) = some (a1, bus1) →
      (symbolsOf pre).length = n →
      arbitrateLoop P client n (pre ++ extra) d
        = Flow.next { st := d.st, arbitration := a1, busstate := bus1
                      bytes := d.bytes ++ (symbolsOf pre).map (fun x => x % 256) } := by
  intro pre
  induction pre with
  | nil =>
    intro n d _ hfeed hlen
    simp only [symbolsOf, List.length_nil] at hlen
    subst hlen
    simp only [symbolsOf, feedAll, Option.some.injEq, Prod.mk.injEq] at hfeed
    obtain ⟨ha, hb⟩ := hfeed
    subst ha hb
    simp [arbitrateLoop, symbolsOf]
  | cons p pre ih =>
    intro n d hq hfeed hlen
    cases p with
    | idle now =>
      simp only [quiet, Bool.and_eq_true, Bool.not_eq_true_eq_eq_false] at hq
      simp only [symbolsOf] at hfeed hlen ⊢
      rw [List.cons_append, arbitrateLoop_idle P client n now _ d hq.1]
      exact ih n d hq.2 hfeed hlen
    | symbol sym =>
      simp only [quiet] at hq
      simp only [symbolsOf, List.length_cons] at hfeed hlen
      obtain ⟨m, rfl⟩ : ∃ m, n = m + 1 := ⟨n - 1, by omega⟩
      obtain ⟨a, bus, hstep, hrest⟩ := feedAll_cons P _ _ _ _ _ hfeed
      rw [List.cons_append, arbitrateLoop_arbitrating P client m sym _ d a bus hstep]
      rw [ih m { st := d.st, arbitration := a, busstate := bus, bytes := d.bytes ++ [sym % 256] }
        hq hrest (by omega)]
      simp [symbolsOf]

/-- Every `return` inside the loop leaves the session empty. -/
theorem arbitrateLoop_ret_clears {Arb Bus : Type} (P : Collaborators Arb Bus) (client : Client) :
    ∀ (n : Nat) (polls : List BusPoll) (d r : Driver Arb Bus),
      arbitrateLoop P client n polls d = Flow.ret r → r.st.arbitration_client = none := by
  intro n
  induction n with
  | zero =>
    intro polls d r h
    simp [arbitrateLoop] at h
  | succ n ih =>
    intro polls d r h
    rw [arbitrateLoop] at h
    split at h
    · simp at h
    · simp only [Flow.ret.injEq] at h
      rw [← h]
    · split at h
      · simp only [Flow.ret.injEq] at h
        rw [← h]
      · exact ih _ _ _ h
      · simp only [Flow.ret.injEq] at h
        rw [← h]
      · simp only [Flow.ret.injEq] at h
        rw [← h]
      · simp only [Flow.ret.injEq] at h
        rw [← h]

/-- The busy wait over idle observations none of which passes the timeout test
does not end. -/
theorem waitSerial_all_idle (t0 : Nat) :
    ∀ ts : List Nat, (∀ t ∈ ts, timedOut t t0 = false) →
      waitSerial t0 (ts.map BusPoll.idle) = Wait.blocked := by
  intro ts
  induction ts with
  | nil => intro _; rfl
  | cons t ts ih =>
    intro h
    rw [List.map_cons, waitSerial_idle _ _ _ (h t (by simp))]
    exact ih (fun u hu => h u (by simp [hu]))

theorem timedOut_of_lt (now t0 : Nat) (hsum : t0 + 2000 < 2 ^ 32) (h : t0 + 2000 < now) :
    timedOut now t0 = true := by
  simp only [timedOut, ARBITRATION_TIMEOUT_MS, decide_eq_true_eq]
  rw [Nat.mod_eq_of_lt hsum]
  exact h

theorem timedOut_of_le (now t0 : Nat) (hsum : t0 + 2000 < 2 ^ 32) (h : now ≤ t0 + 2000) :
    timedOut now t0 = false := by
  simp only [timedOut, ARBITRATION_TIMEOUT_MS, decide_eq_false_iff_not]
  rw [Nat.mod_eq_of_lt hsum]
  omega

/-- The loop is left waiting only when no observation passed the timeout test
and fewer symbols arrived than the loop admits. -/
theorem arbitrateLoop_blocked {Arb Bus : Type} (P : Collaborators Arb Bus) (client : Client) :
    ∀ (polls : List BusPoll) (n : Nat) (d r : Driver Arb Bus),
      arbitrateLoop P client n polls d = Flow.blocked r →
      quiet d.st.arbitration_start polls = true ∧ (symbolsOf polls).length < n := by
  intro polls
  induction polls with
  | nil =>
    intro n d r h
    cases n with
    | zero => simp [arbitrateLoop] at h
    | succ n => simp [quiet, symbolsOf]
  | cons p polls ih =>
    intro n d r h
    cases n with
    | zero => simp [arbitrateLoop] at h
    | succ n =>
      cases p with
      | idle now =>
        cases hto : timedOut now d.st.arbitration_start with
        | true =>
          rw [arbitrateLoop] at h
          simp [waitSerial, hto] at h
        | false =>
          rw [arbitrateLoop_idle P client _ now _ d hto] at h
          have := ih _ _ _ h
          simpa [quiet, symbolsOf, hto] using this
      | symbol sym =>
        rw [arbitrateLoop] at h
        simp only [waitSerial] at h
        split at h
        · simp at h
        · have := ih _ _ _ h
          simpa [quiet, symbolsOf] using this
        · simp at h
        · simp at h
        · simp at h

/-! ## Blocking arbitration driver: timeout, replies, release -/

/-- C8: let client `C` own the session with write headroom of at least
`AVAILABLE_THRESHOLD`, let `arbitration_start + 2000` not overflow and let the
loop admit at least one symbol.  Whatever `start` answers (`ok`): when no bus
symbol is available and the clock reads more than `arbitration_start + 2000`,
`arbitrateEnhClient` returns with the session emptied and exactly the bytes
`0xEC 0x80` (the encoded `ERROR_EBUS`/`ERR_FRAMING`) appended to what was
written to `C`, nothing else changed; when the clock reads at most
`arbitration_start + 2000` in every observation, nothing is written and the
session is unchanged (the call returns when `start` failed, and is still in its
busy wait when `start` succeeded). -/
theorem arbitrateEnhClient_timeout {Arb Bus : Type} (cfg : Config) (P : Collaborators Arb Bus)
    (C : Client) (busstate : Bus) (s : State) (ok : Bool) (a : Arb) (bus : Bus)
    (hown : s.arbitration_client = some C)
    (hroom : cfg.AVAILABLE_THRESHOLD ≤ (s.clients C).availableForWrite)
    (hsize : 0 < cfg.ARBITRATION_BUFFER_SIZE)
    (hsum : s.arbitration_start + 2000 < 2 ^ 32)
    (hstart : P.start P.fresh busstate s.arbitration_address = (ok, a, bus)) :
    (encode ERROR_EBUS ERR_FRAMING = (0xEC, 0x80))
    ∧ (∀ (now : Nat) (rest : List BusPoll), s.arbitration_start + 2000 < now →
        arbitrateEnhClient cfg P C busstate (BusPoll.idle now :: rest) now s
          = Run.returned
              { st := { s with
                        arbitration_client := none
                        clients := Function.update s.clients C
                          { s.clients C with tx := (s.clients C).tx ++ [0xEC, 0x80] } }
                arbitration := a, busstate := bus, bytes := [] })
    ∧ (∀ (now : Nat) (ts : List Nat), now ≤ s.arbitration_start + 2000 →
        (∀ t ∈ ts, t ≤ s.arbitration_start + 2000) →
        arbitrateEnhClient cfg P C busstate (ts.map BusPoll.idle) now s
          = if ok = true then
              Run.waiting { st := s, arbitration := a, busstate := bus, bytes := [] }
            else
              Run.returned { st := s, arbitration := a, busstate := bus, bytes := [] }) := by
  obtain ⟨m, hm⟩ : ∃ m, cfg.ARBITRATION_BUFFER_SIZE = m + 1 :=
    ⟨cfg.ARBITRATION_BUFFER_SIZE - 1, by omega⟩
  have henc : encode (ERROR_EBUS % 256) (ERR_FRAMING % 256) = (0xEC, 0x80) := by decide
  have hsend : send_res C ERROR_EBUS ERR_FRAMING s
      = { s with
          clients := Function.update s.clients C
            { s.clients C with tx := (s.clients C).tx ++ [0xEC, 0x80] } } := by
    simp [send_res, State.setClient, WiFiClient.write, henc]
  refine ⟨by decide, ?_, ?_⟩
  · intro now rest hnow
    have hto := timedOut_of_lt now s.arbitration_start hsum hnow
    cases ok with
    | false =>
      simp [arbitrateEnhClient, hown, hroom, hstart, timeoutCheck, hto, hsend]
    | true =>
      simp [arbitrateEnhClient, hown, hroom, hstart, hm, arbitrateLoop, waitSerial, hto, hsend]
  · intro now ts hnow hts
    have hto := timedOut_of_le now s.arbitration_start hsum hnow
    cases ok with
    | false =>
      simp [arbitrateEnhClient, hown, hroom, hstart, timeoutCheck, hto]
    | true =>
      have hwait := waitSerial_all_idle s.arbitration_start ts
        (fun t ht => timedOut_of_le t s.arbitration_start hsum (hts t ht))
      simp [arbitrateEnhClient, hown, hroom, hstart, hm, arbitrateLoop, hwait]

/-- Witness of `arbitrateEnhClient_timeout`: client `1` owns the session since
clock reading `100`.  At clock reading `2101` with nothing on the bus the
session is emptied and `0xEC 0x80` is written, with `start` succeeding and with
`start` failing; at clock reading `2100` nothing is written. -/
theorem arbitrateEnhClient_timeout_witness :
    (arbitrateEnhClient sampleConfig (scripted true []) 1 (0x31, 0) [BusPoll.idle 2101] 2101
        ownedByOne
      = Run.returned
          { st := { ownedByOne with
                    arbitration_client := none
                    clients := Function.update ownedByOne.clients 1
                      { ownedByOne.clients 1 with tx := (ownedByOne.clients 1).tx ++ [0xEC, 0x80] } }
            arbitration := [], busstate := (0x31, 0), bytes := [] })
    ∧ (arbitrateEnhClient sampleConfig (scripted false []) 1 (0x31, 0) [BusPoll.idle 2101] 2101
        ownedByOne
      = Run.returned
          { st := { ownedByOne with
                    arbitration_client := none
                    clients := Function.update ownedByOne.clients 1
                      { ownedByOne.clients 1 with tx := (ownedByOne.clients 1).tx ++ [0xEC, 0x80] } }
            arbitration := [], busstate := (0x31, 0), bytes := [] })
    ∧ (arbitrateEnhClient sampleConfig (scripted true []) 1 (0x31, 0)
        ([2100, 2100].map BusPoll.idle) 2100 ownedByOne
      = if true = true then
          Run.waiting { st := ownedByOne, arbitration := [], busstate := (0x31, 0), bytes := [] }
        else
          Run.returned { st := ownedByOne, arbitration := [], busstate := (0x31, 0), bytes := [] }) :=
  ⟨(arbitrateEnhClient_timeout sampleConfig (scripted true []) 1 (0x31, 0) ownedByOne true []
      (0x31, 0) rfl (by decide) (by decide) (by decide) rfl).2.1 2101 [] (by decide),
   (arbitrateEnhClient_timeout sampleConfig (scripted false []) 1 (0x31, 0) ownedByOne false []
      (0x31, 0) rfl (by decide) (by decide) (by decide) rfl).2.1 2101 [] (by decide),
   (arbitrateEnhClient_timeout sampleConfig (scripted true []) 1 (0x31, 0) ownedByOne true []
      (0x31, 0) rfl (by decide) (by decide) (by decide) rfl).2.2 2100 [2100, 2100] (by decide)
      (by decide)⟩

/-- C9: let client `C` own the session with write headroom of at least
`AVAILABLE_THRESHOLD` and let `start` succeed.  Let the observations begin with
a stretch `pre` without timeout whose symbols are all answered `arbitrating`,
fewer of them than `ARBITRATION_BUFFER_SIZE`, followed by a symbol `last` that
gets the terminal answer `r`, leaving the bus state `bus2`.  Then
`arbitrateEnhClient` returns with the session emptied, and what it has written
to `C` is exactly: for `won` the two bytes of `encode(STARTED, _master)`; for
`lost` the two bytes of `encode(FAILED, _master)` followed by the two bytes of
`encode(RECEIVED, _byte)`; for `none` and `error` nothing; `_master` and `_byte`
are read from `bus2`.  No other client is written to. -/
theorem arbitrateEnhClient_replies {Arb Bus : Type} (cfg : Config) (P : Collaborators Arb Bus)
    (C : Client) (busstate : Bus) (now : Nat) (s : State) (a0 : Arb) (bus0 : Bus)
    (pre : List BusPoll) (last : Nat) (extra : List BusPoll) (a1 : Arb) (bus1 : Bus)
    (r : ArbitrationState) (a2 : Arb) (bus2 : Bus)
    (hown : s.arbitration_client = some C)
    (hroom : cfg.AVAILABLE_THRESHOLD ≤ (s.clients C).availableForWrite)
    (hstart : P.start P.fresh busstate s.arbitration_address = (true, a0, bus0))
    (hquiet : quiet s.arbitration_start pre = true)
    (harb : feedAll P a0 bus0 (symbolsOf pre) = some (a1, bus1))
    (hlen : (symbolsOf pre).length < cfg.ARBITRATION_BUFFER_SIZE)
    (hlast : feed P a1 bus1 last = (r, a2, bus2))
    (hr : r ≠ ArbitrationState.arbitrating) :
    ∃ d : Driver Arb Bus,
      arbitrateEnhClient cfg P C busstate (pre ++ BusPoll.symbol last :: extra) now s
        = Run.returned d
      ∧ d.busstate = bus2
      ∧ d.bytes = (symbolsOf pre ++ [last]).map (fun x => x % 256)
      ∧ d.st.arbitration_client = none
      ∧ (d.st.clients C).tx
          = (s.clients C).tx ++
            (match r with
             | ArbitrationState.won =>
               [(encode STARTED (P._master bus2 % 256)).1, (encode STARTED (P._master bus2 % 256)).2]
             | ArbitrationState.lost =>
               [(encode FAILED (P._master bus2 % 256)).1, (encode FAILED (P._master bus2 % 256)).2,
                (encode RECEIVED (P._byte bus2 % 256)).1, (encode RECEIVED (P._byte bus2 % 256)).2]
             | _ => [])
      ∧ ∀ k, k ≠ C → d.st.clients k = s.clients k := by
  have hrun := arbitrateLoop_run_terminal P C last extra r a1 a2 bus1 bus2 hlast hr pre
    cfg.ARBITRATION_BUFFER_SIZE { st := s, arbitration := a0, busstate := bus0, bytes := [] }
    hquiet harb hlen
  refine ⟨{ st := afterSwitch P C r bus2 s, arbitration := a2, busstate := bus2
            bytes := [] ++ (symbolsOf pre ++ [last]).map (fun x => x % 256) }, ?_, rfl, ?_, ?_, ?_, ?_⟩
  · simp only [arbitrateEnhClient, hown, hroom, and_self, if_true, hstart, hrun]
  · simp
  · cases r <;> simp [afterSwitch]
  · cases r <;>
      simp [afterSwitch, send_res, State.setClient, WiFiClient.write, STARTED, FAILED, RECEIVED]
  · intro k hk
    cases r <;> simp [afterSwitch, send_res, State.setClient, Function.update_noteq hk]

/-- Witness of `arbitrateEnhClient_replies`: with `_master = 0x35`, the answer
`won` to the first symbol makes the driver write `0xC8 0xB5`; the answers
`arbitrating`, `lost` to the symbols `0x35`, `0x08` make it write
`0xE8 0xB5 0xC4 0x88`. -/
theorem arbitrateEnhClient_replies_witness :
    (∃ d : Driver (List ArbitrationState) (Nat × Nat),
      arbitrateEnhClient sampleConfig (scripted true [ArbitrationState.won]) 1 (0x35, 0)
          ([] ++ BusPoll.symbol 0x35 :: []) 250 ownedByOne = Run.returned d
        ∧ d.st.arbitration_client = none
        ∧ (d.st.clients 1).tx = [0xC8, 0xB5])
    ∧ (∃ d : Driver (List ArbitrationState) (Nat × Nat),
      arbitrateEnhClient sampleConfig
          (scripted true [ArbitrationState.arbitrating, ArbitrationState.lost]) 1 (0x35, 0)
          ([BusPoll.idle 150, BusPoll.symbol 0x35] ++ BusPoll.symbol 0x08 :: []) 250 ownedByOne
          = Run.returned d
        ∧ d.st.arbitration_client = none
        ∧ (d.st.clients 1).tx = [0xE8, 0xB5, 0xC4, 0x88]) := by
  constructor
  · obtain ⟨d, hrun, _, _, hclient, htx, _⟩ :=
      arbitrateEnhClient_replies sampleConfig (scripted true [ArbitrationState.won]) 1 (0x35, 0)
        250 ownedByOne [ArbitrationState.won] (0x35, 0) [] 0x35 [] [ArbitrationState.won]
        (0x35, 0) ArbitrationState.won [] (0x35, 0x35) rfl (by decide) rfl rfl rfl (by decide)
        rfl (by decide)
    exact ⟨d, hrun, hclient, htx.trans (by decide)⟩
  · obtain ⟨d, hrun, _, _, hclient, htx, _⟩ :=
      arbitrateEnhClient_replies sampleConfig
        (scripted true [ArbitrationState.arbitrating, ArbitrationState.lost]) 1 (0x35, 0)
        250 ownedByOne [ArbitrationState.arbitrating, ArbitrationState.lost] (0x35, 0)
        [BusPoll.idle 150, BusPoll.symbol 0x35] 0x08 [] [ArbitrationState.lost] (0x35, 0x35)
        ArbitrationState.lost [] (0x35, 0x08) rfl (by decide) rfl rfl rfl (by decide)
        rfl (by decide)
    exact ⟨d, hrun, hclient, htx.trans (by decide)⟩

/-- C10: let client `C` own the session with write headroom of at least
`AVAILABLE_THRESHOLD` and let `start` succeed.  Then (1) whenever
`arbitrateEnhClient` returns, for any observations, `arbitration_client` is
`NULL`; (2) when the observations hold `ARBITRATION_BUFFER_SIZE` symbols, all
answered `arbitrating`, and no timeout before them, it returns with the session
emptied and nothing else changed, so no reply is written; (3) it does return
whenever some idle observation passes the timeout test or at least
`ARBITRATION_BUFFER_SIZE` symbols arrive. -/
theorem arbitrateEnhClient_releases {Arb Bus : Type} (cfg : Config) (P : Collaborators Arb Bus)
    (C : Client) (busstate : Bus) (now : Nat) (s : State) (a0 : Arb) (bus0 : Bus)
    (hown : s.arbitration_client = some C)
    (hroom : cfg.AVAILABLE_THRESHOLD ≤ (s.clients C).availableForWrite)
    (hstart : P.start P.fresh busstate s.arbitration_address = (true, a0, bus0)) :
    (∀ (polls : List BusPoll) (d : Driver Arb Bus),
        arbitrateEnhClient cfg P C busstate polls now s = Run.returned d →
        d.st.arbitration_client = none)
    ∧ (∀ (pre extra : List BusPoll) (a1 : Arb) (bus1 : Bus),
        quiet s.arbitration_start pre = true →
        feedAll P a0 bus0 (symbolsOf pre) = some (a1, bus1) →
        (symbolsOf pre).length = cfg.ARBITRATION_BUFFER_SIZE →
        arbitrateEnhClient cfg P C busstate (pre ++ extra) now s
          = Run.returned
              { st := { s with arbitration_client := none }, arbitration := a1, busstate := bus1
                bytes := (symbolsOf pre).map (fun x => x % 256) })
    ∧ (∀ polls : List BusPoll,
        quiet s.arbitration_start polls = false
          ∨ cfg.ARBITRATION_BUFFER_SIZE ≤ (symbolsOf polls).length →
        ∃ d, arbitrateEnhClient cfg P C busstate polls now s = Run.returned d) := by
  refine ⟨?_, ?_, ?_⟩
  · intro polls d h
    simp only [arbitrateEnhClient, hown, hroom, and_self, if_true, hstart] at h
    split at h
    · rename_i r hloop
      simp only [Run.returned.injEq] at h
      rw [← h]
      exact arbitrateLoop_ret_clears P C _ _ _ _ hloop
    · simp at h
    · simp only [Run.returned.injEq] at h
      rw [← h]
      simp [timeoutCheck]
  · intro pre extra a1 bus1 hq hfeed hlen
    have hrun := arbitrateLoop_run_exhausted P C extra a1 bus1 pre cfg.ARBITRATION_BUFFER_SIZE
      { st := s, arbitration := a0, busstate := bus0, bytes := [] } hq hfeed hlen
    simp [arbitrateEnhClient, hown, hroom, hstart, hrun, timeoutCheck]
  · intro polls hpolls
    simp only [arbitrateEnhClient, hown, hroom, and_self, if_true, hstart]
    split
    · exact ⟨_, rfl⟩
    · rename_i r hloop
      have hb := arbitrateLoop_blocked P C _ _ _ _ hloop
      simp only at hb
      rcases hpolls with hq | hn
      · rw [hq] at hb
        exact absurd hb.1 (by simp)
      · omega
    · exact ⟨_, rfl⟩

/-- Witness of `arbitrateEnhClient_releases`: three symbols, all answered
`arbitrating`, exhaust the loop of the sample configuration; the driver returns
with the session emptied and nothing written. -/
theorem arbitrateEnhClient_releases_witness :
    arbitrateEnhClient sampleConfig
        (scripted true
          [ArbitrationState.arbitrating, ArbitrationState.arbitrating, ArbitrationState.arbitrating])
        1 (0x35, 0)
        ([BusPoll.symbol 1, BusPoll.idle 150, BusPoll.symbol 2, BusPoll.symbol 3]
          ++ [BusPoll.symbol 4]) 250 ownedByOne
      = Run.returned
          { st := { ownedByOne with arbitration_client := none }, arbitration := []
            busstate := (0x35, 3)
            bytes := (symbolsOf
              [BusPoll.symbol 1, BusPoll.idle 150, BusPoll.symbol 2, BusPoll.symbol 3]).map
                (fun x => x % 256) }
    ∧ ∃ d : Driver (List ArbitrationState) (Nat × Nat),
        arbitrateEnhClient sampleConfig
          (scripted true
            [ArbitrationState.arbitrating, ArbitrationState.arbitrating,
              ArbitrationState.arbitrating])
          1 (0x35, 0) [BusPoll.symbol 1, BusPoll.idle 2101] 250 ownedByOne = Run.returned d
        ∧ d.st.arbitration_client = none := by
  have h := arbitrateEnhClient_releases sampleConfig
    (scripted true
      [ArbitrationState.arbitrating, ArbitrationState.arbitrating, ArbitrationState.arbitrating])
    1 (0x35, 0) 250 ownedByOne
    [ArbitrationState.arbitrating, ArbitrationState.arbitrating, ArbitrationState.arbitrating]
    (0x35, 0) rfl (by decide) rfl
  refine ⟨h.2.1 [BusPoll.symbol 1, BusPoll.idle 150, BusPoll.symbol 2, BusPoll.symbol 3]
    [BusPoll.symbol 4] [] (0x35, 3) (by decide) rfl rfl, ?_⟩
  obtain ⟨d, hd⟩ := h.2.2 [BusPoll.symbol 1, BusPoll.idle 2101] (Or.inl (by decide))
  exact ⟨d, hd, h.1 _ d hd⟩

/-! ## The blocking driver and `arbitration_ongoing` -/

theorem arbitrateLoop_withOngoing {Arb Bus : Type} (P : Collaborators Arb Bus) (client : Client)
    (b : Bool) :
    ∀ (n : Nat) (polls : List BusPoll) (d : Driver Arb Bus),
      arbitrateLoop P client n polls (d.withOngoing b)
        = (arbitrateLoop P client n polls d).map (Driver.withOngoing b) := by
  intro n
  induction n with
  | zero => intro polls d; simp [arbitrateLoop, Flow.map]
  | succ n ih =>
    intro polls d
    rw [arbitrateLoop, arbitrateLoop]
    have hstart : (d.withOngoing b).st.arbitration_start = d.st.arbitration_start := rfl
    rw [hstart]
    cases waitSerial d.st.arbitration_start polls with
    | timeout => rfl
    | blocked => rfl
    | symbol sym rest =>
      have hfeed : feed P (d.withOngoing b).arbitration (d.withOngoing b).busstate sym
          = feed P d.arbitration d.busstate sym := rfl
      simp only [hfeed]
      rcases feed P d.arbitration d.busstate sym with ⟨r, a, bus⟩
      cases r with
      | arbitrating =>
        exact ih rest
          { st := d.st, arbitration := a, busstate := bus, bytes := d.bytes ++ [sym % 256] }
      | none => rfl
      | won => rfl
      | lost => rfl
      | error => rfl

theorem arbitrateEnhClient_withOngoing {Arb Bus : Type} (cfg : Config)
    (P : Collaborators Arb Bus) (client : Client) (busstate : Bus) (polls : List BusPoll)
    (now : Nat) (s : State) (b : Bool) :
    arbitrateEnhClient cfg P client busstate polls now { s with arbitration_ongoing := b }
      = (arbitrateEnhClient cfg P client busstate polls now s).map (Driver.withOngoing b) := by
  unfold arbitrateEnhClient
  simp only []
  split
  · rcases P.start P.fresh busstate s.arbitration_address with ⟨ok, a, bus⟩
    cases ok with
    | false =>
      simp only [Run.map, Driver.withOngoing, timeoutCheck]
      split <;> rfl
    | true =>
      have h := arbitrateLoop_withOngoing P client b cfg.ARBITRATION_BUFFER_SIZE polls
        { st := s, arbitration := a, busstate := bus, bytes := [] }
      simp only [Driver.withOngoing] at h
      simp only [h]
      cases arbitrateLoop P client cfg.ARBITRATION_BUFFER_SIZE polls
        { st := s, arbitration := a, busstate := bus, bytes := [] } with
      | ret d => rfl
      | blocked d => rfl
      | next d => simp [Flow.map, Run.map, Driver.withOngoing, timeoutCheck]
  · rfl

/-- The blocking driver leaves `arbitration_ongoing` as it is. -/
theorem arbitrateEnhClient_keeps_ongoing {Arb Bus : Type} (cfg : Config)
    (P : Collaborators Arb Bus) (client : Client) (busstate : Bus) (polls : List BusPoll)
    (now : Nat) (s : State) (d : Driver Arb Bus)
    (h : arbitrateEnhClient cfg P client busstate polls now s = Run.returned d) :
    d.st.arbitration_ongoing = s.arbitration_ongoing := by
  have hc := arbitrateEnhClient_withOngoing cfg P client busstate polls now s
    s.arbitration_ongoing
  have hs : ({ s with arbitration_ongoing := s.arbitration_ongoing } : State) = s := rfl
  rw [hs, h] at hc
  simp only [Run.map, Run.returned.injEq] at hc
  rw [hc]
  rfl

/-- C11, as stated, fails: client `1` owns the session, `arbitration_ongoing` is
true, a symbol is on the bus.  The blocking driver calls `start` (the primitive
counts one call), consumes the symbol and, on the answer `won`, writes
`0xC8 0xB5` and empties the session. -/
theorem arbitrateEnhClient_runs_while_ongoing :
    handedOver.arbitration_ongoing = true
    ∧ handedOver.arbitration_client = some 1
    ∧ ∃ d : Driver Nat (Nat × Nat),
        arbitrateEnhClient sampleConfig counting 1 (0x35, 0) [BusPoll.symbol 0x35] 250 handedOver
          = Run.returned d
        ∧ counting.fresh = 0 ∧ d.arbitration = 1
        ∧ d.bytes = [0x35]
        ∧ d.st.arbitration_client = none
        ∧ (d.st.clients 1).tx = [0xC8, 0xB5] :=
  ⟨rfl, rfl,
    { st := { send_res 1 STARTED 0x35 handedOver with arbitration_client := none }
      arbitration := 1, busstate := (0x35, 0x35), bytes := [0x35] },
    rfl, rfl, rfl, rfl, rfl, by decide⟩

/-- C11, amended: in a state with `arbitration_ongoing` true the blocking
driver does exactly what it does in the same state with the flag false (it
neither reads nor writes the flag), and the flag is still true when it
returns. -/
theorem arbitrateEnhClient_ongoing_irrelevant {Arb Bus : Type} (cfg : Config)
    (P : Collaborators Arb Bus) (C : Client) (busstate : Bus) (polls : List BusPoll)
    (now : Nat) (s : State) (hflag : s.arbitration_ongoing = true) :
    arbitrateEnhClient cfg P C busstate polls now s
        = (arbitrateEnhClient cfg P C busstate polls now
            { s with arbitration_ongoing := false }).map (Driver.withOngoing true)
    ∧ ∀ d, arbitrateEnhClient cfg P C busstate polls now s = Run.returned d →
        d.st.arbitration_ongoing = true := by
  constructor
  · have h := arbitrateEnhClient_withOngoing cfg P C busstate polls now
      { s with arbitration_ongoing := false } true
    have hs : ({ ({ s with arbitration_ongoing := false } : State) with
        arbitration_ongoing := true } : State) = s := by
      cases s
      simp only [State.mk.injEq, true_and, and_true] at hflag ⊢
      exact hflag.symm
    rw [hs] at h
    exact h
  · intro d hd
    rw [arbitrateEnhClient_keeps_ongoing cfg P C busstate polls now s d hd, hflag]

/-- Witness of `arbitrateEnhClient_ongoing_irrelevant` at the state
`handedOver` with one symbol on the bus. -/
theorem arbitrateEnhClient_ongoing_irrelevant_witness :
    arbitrateEnhClient sampleConfig counting 1 (0x35, 0) [BusPoll.symbol 0x35] 250 handedOver
      = (arbitrateEnhClient sampleConfig counting 1 (0x35, 0) [BusPoll.symbol 0x35] 250
          { handedOver with arbitration_ongoing := false }).map (Driver.withOngoing true) :=
  (arbitrateEnhClient_ongoing_irrelevant sampleConfig counting 1 (0x35, 0)
    [BusPoll.symbol 0x35] 250 handedOver rfl).1

/-! ## Completion callbacks and `pushEnhClient` -/

/-- C12, as stated, fails: `enhArbitrationError` on an empty queue appends the
entry `(ERROR_EBUS, ERR_FRAMING)`. -/
theorem enhArbitrationError_appends :
    handedOver.sendqueue = []
    ∧ (enhArbitrationError 1 handedOver).sendqueue = [{ c := ERROR_EBUS, d := ERR_FRAMING }]
    ∧ (enhArbitrationError 1 handedOver).sendqueue ≠ handedOver.sendqueue := by
  decide

/-- C12, amended: each completion callback sets `arbitration_client` to `NULL`
and `arbitration_ongoing` to false and changes nothing but the queue.  With
room in the queue, `enhArbitrationWon` appends `(STARTED, master)`,
`enhArbitrationLost` appends `(FAILED, master)` then `(RECEIVED, nextsymbol)`,
and `enhArbitrationError` appends `(ERROR_EBUS, ERR_FRAMING)`; with nine entries
queued `enhArbitrationLost` appends `(FAILED, master)` only, and a full queue is
left as it is.  The bytes `send_res` writes for the entries appended by the
first two are the bytes the blocking driver writes for `won` and `lost`; for
`error` the blocking driver writes nothing. -/
theorem completion_callbacks (client : Client) (master nextsymbol : Nat) (s : State) :
    (s.sendqueue.length < SENDCOMMANDQUEUELENGTH →
      enhArbitrationWon client master s
        = { s with arbitration_client := none, arbitration_ongoing := false
                   sendqueue := s.sendqueue ++ [{ c := STARTED, d := master }] }
      ∧ enhArbitrationError client s
        = { s with arbitration_client := none, arbitration_ongoing := false
                   sendqueue := s.sendqueue ++ [{ c := ERROR_EBUS, d := ERR_FRAMING }] })
    ∧ (s.sendqueue.length + 2 ≤ SENDCOMMANDQUEUELENGTH →
      enhArbitrationLost client master nextsymbol s
        = { s with arbitration_client := none, arbitration_ongoing := false
                   sendqueue := s.sendqueue
                     ++ [{ c := FAILED, d := master }, { c := RECEIVED, d := nextsymbol }] })
    ∧ (s.sendqueue.length + 1 = SENDCOMMANDQUEUELENGTH →
      enhArbitrationLost client master nextsymbol s
        = { s with arbitration_client := none, arbitration_ongoing := false
                   sendqueue := s.sendqueue ++ [{ c := FAILED, d := master }] })
    ∧ (SENDCOMMANDQUEUELENGTH ≤ s.sendqueue.length →
      enhArbitrationWon client master s
        = { s with arbitration_client := none, arbitration_ongoing := false }
      ∧ enhArbitrationLost client master nextsymbol s
        = { s with arbitration_client := none, arbitration_ongoing := false }
      ∧ enhArbitrationError client s
        = { s with arbitration_client := none, arbitration_ongoing := false })
    ∧ (∀ (Arb Bus : Type) (P : Collaborators Arb Bus) (bus : Bus) (C : Client) (t : State),
        ((afterSwitch P C ArbitrationState.won bus t).clients C).tx
          = (t.clients C).tx ++ encodeAll [{ c := STARTED, d := P._master bus }]
        ∧ ((afterSwitch P C ArbitrationState.lost bus t).clients C).tx
          = (t.clients C).tx
            ++ encodeAll [{ c := FAILED, d := P._master bus }, { c := RECEIVED, d := P._byte bus }]
        ∧ ((afterSwitch P C ArbitrationState.error bus t).clients C).tx = (t.clients C).tx) := by
  refine ⟨?_, ?_, ?_, ?_, ?_⟩
  · intro h
    simp [enhArbitrationWon, enhArbitrationError, queue_command, h]
  · intro h
    have h1 : s.sendqueue.length < SENDCOMMANDQUEUELENGTH := by omega
    have h2 : s.sendqueue.length + 1 < SENDCOMMANDQUEUELENGTH := by omega
    simp [enhArbitrationLost, queue_command, h1, h2]
  · intro h
    have h1 : s.sendqueue.length < SENDCOMMANDQUEUELENGTH := by omega
    have h2 : ¬ s.sendqueue.length + 1 < SENDCOMMANDQUEUELENGTH := by omega
    simp [enhArbitrationLost, queue_command, h1, h2]
  · intro h
    have h1 : ¬ s.sendqueue.length < SENDCOMMANDQUEUELENGTH := by omega
    simp [enhArbitrationWon, enhArbitrationLost, enhArbitrationError, queue_command, h1]
  · intro Arb Bus P bus C t
    simp [afterSwitch, send_res, State.setClient, WiFiClient.write, encodeAll, STARTED, FAILED,
      RECEIVED]

/-- Witness of `completion_callbacks` at the state `handedOver`, whose queue is
empty. -/
theorem completion_callbacks_witness :
    (enhArbitrationWon 1 0x35 handedOver
        = { handedOver with arbitration_client := none, arbitration_ongoing := false
                            sendqueue := handedOver.sendqueue ++ [{ c := STARTED, d := 0x35 }] }
      ∧ enhArbitrationError 1 handedOver
        = { handedOver with arbitration_client := none, arbitration_ongoing := false
                            sendqueue := handedOver.sendqueue
                              ++ [{ c := ERROR_EBUS, d := ERR_FRAMING }] })
    ∧ enhArbitrationLost 1 0x35 0x08 handedOver
        = { handedOver with arbitration_client := none, arbitration_ongoing := false
                            sendqueue := handedOver.sendqueue
                              ++ [{ c := FAILED, d := 0x35 }, { c := RECEIVED, d := 0x08 }] } :=
  ⟨(completion_callbacks 1 0x35 0x08 handedOver).1 (by decide),
   (completion_callbacks 1 0x35 0x08 handedOver).2.1 (by decide)⟩

/-- C13, at the failing input: client `1` owns the session, `startEnhArbitration`
hands it over (flag true, queue empty), `enhArbitrationWon` reports master
`0x35`.  The next `pushEnhClient(1, 0x10)` returns `1` and writes `0xC4 0x90`, the
encoded `RECEIVED`/`0x10`; the entry `(STARTED, 0x35)` stays in the queue, where
the claim says `0xC8 0xB5` is written. -/
theorem pushEnhClient_after_won :
    (startEnhArbitration (scripted true []) 150 [] (0x35, 0) ownedByOne).st.arbitration_ongoing
        = true
    ∧ (startEnhArbitration (scripted true []) 150 [] (0x35, 0) ownedByOne).st.sendqueue = []
    ∧ (startEnhArbitration (scripted true []) 150 [] (0x35, 0) ownedByOne).client = some 1
    ∧ afterWon.arbitration_ongoing = false
    ∧ afterWon.sendqueue = [{ c := STARTED, d := 0x35 }]
    ∧ sampleConfig.AVAILABLE_THRESHOLD ≤ (afterWon.clients 1).availableForWrite
    ∧ (pushEnhClient sampleConfig 1 0x10 afterWon).1 = 1
    ∧ ((pushEnhClient sampleConfig 1 0x10 afterWon).2.clients 1).tx = [0xC4, 0x90]
    ∧ (pushEnhClient sampleConfig 1 0x10 afterWon).2.sendqueue = [{ c := STARTED, d := 0x35 }] := by
  decide

theorem drainQueue_eq (client : Client) :
    ∀ (q : List command) (s : State),
      drainQueue client q s
        = { s with
            sendqueue := []
            clients := Function.update s.clients client
              { s.clients client with tx := (s.clients client).tx ++ encodeAll q } } := by
  intro q
  induction q with
  | nil =>
    intro s
    simp [drainQueue, encodeAll]
  | cons e rest ih =>
    intro s
    rw [drainQueue, ih]
    simp [send_res, State.setClient, WiFiClient.write, encodeAll]

/-- C14: with write headroom of at least `AVAILABLE_THRESHOLD`, `pushEnhClient`
returns `1`; if `arbitration_ongoing` is true it appends to what was written to
the client the encodings of the queued responses, oldest first, and nothing
else, and leaves the queue empty; if `arbitration_ongoing` is false it appends
exactly the two bytes of `encode(RECEIVED, B)` and leaves the queue as it is.
With less headroom it returns `0` and changes nothing.  In each case nothing
else changes. -/
theorem pushEnhClient_spec (cfg : Config) (C : Client) (B : Nat) (s : State) :
    (cfg.AVAILABLE_THRESHOLD ≤ (s.clients C).availableForWrite →
      s.arbitration_ongoing = true →
      pushEnhClient cfg C B s
        = (1, { s with
                sendqueue := []
                clients := Function.update s.clients C
                  { s.clients C with tx := (s.clients C).tx ++ encodeAll s.sendqueue } }))
    ∧ (cfg.AVAILABLE_THRESHOLD ≤ (s.clients C).availableForWrite →
      s.arbitration_ongoing = false →
      pushEnhClient cfg C B s
        = (1, { s with
                clients := Function.update s.clients C
                  { s.clients C with
                    tx := (s.clients C).tx
                      ++ [(encode RECEIVED (B % 256)).1, (encode RECEIVED (B % 256)).2] } }))
    ∧ ((s.clients C).availableForWrite < cfg.AVAILABLE_THRESHOLD →
      pushEnhClient cfg C B s = (0, s)) := by
  refine ⟨?_, ?_, ?_⟩
  · intro hroom hflag
    simp [pushEnhClient, hroom, hflag, drainQueue_eq]
  · intro hroom hflag
    simp [pushEnhClient, hroom, hflag, send_res, State.setClient, WiFiClient.write, RECEIVED]
  · intro hroom
    have h : ¬ cfg.AVAILABLE_THRESHOLD ≤ (s.clients C).availableForWrite := by omega
    simp [pushEnhClient, h]

/-- Witness of `pushEnhClient_spec`: with the flag true and the queue holding
`(FAILED, 0x35)`, `(RECEIVED, 0x08)` the bytes `0xE8 0xB5 0xC4 0x88` are written
and the queue is emptied; with the flag false `0xC4 0x90` is written for
`B = 0x10`; with a threshold of 65 bytes nothing happens. -/
theorem pushEnhClient_spec_witness :
    ((pushEnhClient sampleConfig 1 0x10
        { handedOver with
          sendqueue := [{ c := FAILED, d := 0x35 }, { c := RECEIVED, d := 0x08 }] }).1 = 1
      ∧ ((pushEnhClient sampleConfig 1 0x10
        { handedOver with
          sendqueue := [{ c := FAILED, d := 0x35 }, { c := RECEIVED, d := 0x08 }] }).2.clients
            1).tx = [0xE8, 0xB5, 0xC4, 0x88]
      ∧ (pushEnhClient sampleConfig 1 0x10
        { handedOver with
          sendqueue := [{ c := FAILED, d := 0x35 }, { c := RECEIVED, d := 0x08 }] }).2.sendqueue
            = [])
    ∧ ((pushEnhClient sampleConfig 1 0x10 afterWon).1 = 1
      ∧ ((pushEnhClient sampleConfig 1 0x10 afterWon).2.clients 1).tx = [0xC4, 0x90]
      ∧ (pushEnhClient sampleConfig 1 0x10 afterWon).2.sendqueue = afterWon.sendqueue)
    ∧ pushEnhClient { sampleConfig with AVAILABLE_THRESHOLD := 65 } 1 0x10 afterWon
        = (0, afterWon) := by
  refine ⟨?_, ?_, ?_⟩
  · rw [(pushEnhClient_spec sampleConfig 1 0x10
      { handedOver with
        sendqueue := [{ c := FAILED, d := 0x35 }, { c := RECEIVED, d := 0x08 }] }).1
      (by decide) rfl]
    exact ⟨rfl, by decide, rfl⟩
  · rw [(pushEnhClient_spec sampleConfig 1 0x10 afterWon).2.1 (by decide) rfl]
    exact ⟨rfl, by decide, rfl⟩
  · exact (pushEnhClient_spec { sampleConfig with AVAILABLE_THRESHOLD := 65 } 1 0x10
      afterWon).2.2 (by decide)

/-! ## Command dispatcher: acquisition and `CMD_INIT` -/

/-- C15: on an empty session, `CMD_START` from client `C` with data `d` other
than `SYN` records `C` as the owner, `d` as the address and the current clock
reading as `arbitration_start`; nothing else changes, so nothing is written to
any client or to the bus. -/
theorem process_cmd_start_acquire (cfg : Config) (now : Nat) (C : Client) (d : Nat) (s : State)
    (hempty : s.arbitration_client = none) (hd : d ≠ cfg.SYN) :
    process_cmd cfg now C CMD_START d s
      = { s with
          arbitration_client := some C
          arbitration_start := now
          arbitration_address := (d : Int) } := by
  simp [process_cmd, CMD_START, CMD_INIT, hd, hempty]

/-- Witness of `process_cmd_start_acquire`: client `1` asks for address `0x31`
at clock reading `100` in the initial state. -/
theorem process_cmd_start_acquire_witness :
    process_cmd sampleConfig 100 1 CMD_START 0x31 initial
      = { initial with
          arbitration_client := some 1
          arbitration_start := 100
          arbitration_address := ((0x31 : Nat) : Int) } :=
  process_cmd_start_acquire sampleConfig 100 1 0x31 initial rfl (by decide)

/-- C17: `CMD_INIT` with any data appends exactly the two bytes `0xC0 0x80`, the
encoded `RESETTED`/`0x00`, to what was written to the client and changes
nothing else: nothing goes to the bus, and `arbitration_client`,
`arbitration_address`, `arbitration_start` and `arbitration_ongoing` are as
before. -/
theorem process_cmd_init (cfg : Config) (now : Nat) (C : Client) (d : Nat) (s : State) :
    process_cmd cfg now C CMD_INIT d s
        = { s with
            clients := Function.update s.clients C
              { s.clients C with tx := (s.clients C).tx ++ [0xC0, 0x80] } }
    ∧ encode RESETTED 0x00 = (0xC0, 0x80) := by
  have henc : encode (RESETTED % 256) (0 % 256) = (0xC0, 0x80) := by decide
  refine ⟨?_, by decide⟩
  simp [process_cmd, send_res, State.setClient, WiFiClient.write, henc]

/-! ## Asynchronous driver: hand-over -/

/-- C18: `startEnhArbitration` calls `start` (with `arbitration_address`)
exactly when `arbitration_client` is not `NULL` and `arbitration_ongoing` is
false, whatever the clock reads: in that case the primitive and the bus state
are what `start` leaves, the owner is returned and `arbitration_ongoing` becomes
true if `start` answered true, and `NULL` is returned with the flag still false
if it answered false; otherwise `NULL` is returned and the primitive and the bus
state are untouched.  In every case the session (`arbitration_client`,
`arbitration_address`, `arbitration_start`) is unchanged; besides the flag only
the static `lastTime` can change. -/
theorem startEnhArbitration_handoff {Arb Bus : Type} (P : Collaborators Arb Bus) (now : Nat)
    (arbitration : Arb) (busState : Bus) (s : State) (ok : Bool) (a : Arb) (bus : Bus)
    (hstart : P.start arbitration busState s.arbitration_address = (ok, a, bus)) :
    (s.arbitration_client ≠ none ∧ s.arbitration_ongoing = false →
      startEnhArbitration P now arbitration busState s
        = { client := if ok = true then s.arbitration_client else none
            arbitration := a
            busState := bus
            st := { s with
                    lastTime := if ulongSub now s.lastTime > 500 then now else s.lastTime
                    arbitration_ongoing := ok } })
    ∧ (¬ (s.arbitration_client ≠ none ∧ s.arbitration_ongoing = false) →
      startEnhArbitration P now arbitration busState s
        = { client := none
            arbitration := arbitration
            busState := busState
            st := { s with
                    lastTime := if ulongSub now s.lastTime > 500 then now else s.lastTime } }) := by
  constructor
  · rintro ⟨hclient, hflag⟩
    by_cases hdelta : ulongSub now s.lastTime > 500
    · cases ok <;> simp [startEnhArbitration, hdelta, hclient, hflag, hstart]
    · cases ok with
      | true => simp [startEnhArbitration, hdelta, hclient, hflag, hstart]
      | false =>
        simp only [startEnhArbitration, hdelta, hclient, hflag, hstart]
        cases s
        simp_all
  · intro hcond
    by_cases hdelta : ulongSub now s.lastTime > 500
    · simp only [startEnhArbitration, hdelta, if_true]
      rw [if_neg]
      simpa using hcond
    · simp only [startEnhArbitration, hdelta, if_false]
      rw [if_neg]
      simpa using hcond

/-- Witness of `startEnhArbitration_handoff`: the session of client `1` is
handed over at clock reading `700` (one call of `start`); with the flag already
true nothing is handed over (no call of `start`). -/
theorem startEnhArbitration_handoff_witness :
    startEnhArbitration counting 700 0 (0x35, 0) ownedByOne
        = { client := if true = true then ownedByOne.arbitration_client else none
            arbitration := 1
            busState := (0x35, 0)
            st := { ownedByOne with
                    lastTime := if ulongSub 700 ownedByOne.lastTime > 500 then 700
                                else ownedByOne.lastTime
                    arbitration_ongoing := true } }
    ∧ startEnhArbitration counting 700 0 (0x35, 0) handedOver
        = { client := none
            arbitration := 0
            busState := (0x35, 0)
            st := { handedOver with
                    lastTime := if ulongSub 700 handedOver.lastTime > 500 then 700
                                else handedOver.lastTime } } :=
  ⟨(startEnhArbitration_handoff counting 700 0 (0x35, 0) ownedByOne true 1 (0x35, 0) rfl).1
      (by decide),
   (startEnhArbitration_handoff counting 700 0 (0x35, 0) handedOver true 1 (0x35, 0) rfl).2
      (by decide)⟩

/-! ## The flag `arbitration_ongoing` along calls -/

theorem send_res_ongoing (client : Client) (c d : Nat) (s : State) :
    (send_res client c d s).arbitration_ongoing = s.arbitration_ongoing := rfl

theorem process_cmd_ongoing (cfg : Config) (now : Nat) (client : Client) (c d : Nat)
    (s : State) :
    (process_cmd cfg now client c d s).arbitration_ongoing = s.arbitration_ongoing := by
  unfold process_cmd
  split_ifs <;> rfl

theorem pushEnhClient_ongoing (cfg : Config) (client : Client) (B : Nat) (s : State) :
    (pushEnhClient cfg client B s).2.arbitration_ongoing = s.arbitration_ongoing := by
  unfold pushEnhClient
  split_ifs
  · rw [drainQueue_eq]
  · rfl
  · rfl

theorem queue_command_ongoing (c d : Nat) (s : State) :
    (queue_command c d s).arbitration_ongoing = s.arbitration_ongoing := by
  unfold queue_command
  split_ifs <;> rfl

theorem startEnhArbitration_client {Arb Bus : Type} (P : Collaborators Arb Bus) (now : Nat)
    (arbitration : Arb) (busState : Bus) (s : State) :
    (startEnhArbitration P now arbitration busState s).st.arbitration_client
      = s.arbitration_client := by
  unfold startEnhArbitration
  simp only []
  repeat' split
  all_goals rfl

theorem startEnhArbitration_ongoing_of_empty {Arb Bus : Type} (P : Collaborators Arb Bus)
    (now : Nat) (arbitration : Arb) (busState : Bus) (s : State)
    (hempty : s.arbitration_client = none) :
    (startEnhArbitration P now arbitration busState s).st.arbitration_ongoing
      = s.arbitration_ongoing := by
  unfold startEnhArbitration
  by_cases hdelta : ulongSub now s.lastTime > 500 <;> simp [hdelta, hempty]

/-- C19, as stated, fails: from the initial state, client `1` requests
arbitration, `startEnhArbitration` hands the session over, and client `1`
cancels with `CMD_START` and `SYN`; the state reached has `arbitration_ongoing`
true and `arbitration_client` `NULL`. -/
theorem ongoing_without_owner_reachable :
    initial.arbitration_client = none
    ∧ initial.arbitration_ongoing = false
    ∧ ∃ s : State, Relation.ReflTransGen (Step sampleConfig) initial s
        ∧ s.arbitration_ongoing = true ∧ s.arbitration_client = none :=
  ⟨rfl, rfl,
    process_cmd sampleConfig 200 1 CMD_START sampleConfig.SYN
      (startEnhArbitration (scripted true []) 150 [] (0x35, 0)
        (process_cmd sampleConfig 100 1 CMD_START 0x31 initial)).st,
    ((Relation.ReflTransGen.single (Step.cmd initial 100 1 CMD_START 0x31)).tail
      (Step.start (scripted true []) 150 [] (0x35, 0) _)).tail
      (Step.cmd _ 200 1 CMD_START sampleConfig.SYN),
    by decide, by decide⟩

/-- C19, amended: a call of `process_cmd`, `startEnhArbitration`,
`arbitrateEnhClient`, `pushEnhClient` or a completion callback that finds
`arbitration_ongoing` false and leaves it true leaves `arbitration_client`
non-`NULL`: the flag is never set for an empty session. -/
theorem ongoing_set_with_owner (cfg : Config) (s t : State) (hstep : Step cfg s t)
    (hbefore : s.arbitration_ongoing = false) (hafter : t.arbitration_ongoing = true) :
    t.arbitration_client ≠ none := by
  cases hstep with
  | cmd now client c d =>
    rw [process_cmd_ongoing, hbefore] at hafter
    exact absurd hafter (by simp)
  | start P now arbitration busState =>
    rw [startEnhArbitration_client]
    intro hclient
    rw [startEnhArbitration_ongoing_of_empty P now arbitration busState s hclient, hbefore]
      at hafter
    exact absurd hafter (by simp)
  | @arbitrate Arb Bus P client busstate polls now _ d hrun =>
    rw [arbitrateEnhClient_keeps_ongoing cfg P client busstate polls now s d hrun, hbefore]
      at hafter
    exact absurd hafter (by simp)
  | push client B =>
    rw [pushEnhClient_ongoing, hbefore] at hafter
    exact absurd hafter (by simp)
  | won client master =>
    simp [enhArbitrationWon, queue_command_ongoing] at hafter
  | lost client master nextsymbol =>
    simp [enhArbitrationLost, queue_command_ongoing] at hafter
  | error client =>
    simp [enhArbitrationError] at hafter

/-- Witness of `ongoing_set_with_owner`: the hand-over of the session of client
`1` by `startEnhArbitration`. -/
theorem ongoing_set_with_owner_witness :
    (startEnhArbitration (scripted true []) 150 [] (0x35, 0) ownedByOne).st.arbitration_client
      ≠ none :=
  ongoing_set_with_owner sampleConfig ownedByOne
    (startEnhArbitration (scripted true []) 150 [] (0x35, 0) ownedByOne).st
    (Step.start (scripted true []) 150 [] (0x35, 0) ownedByOne) rfl rfl

/-! ## The timeout test and the wrap of the clock -/

/-- C20, at failing inputs: with `arbitration_start` 1000 ms before the wrap of
the 32-bit clock and the clock 500 ms later, the test
`millis() > arbitration_start + 2000` is true although only 500 ms have passed;
with `arbitration_start` 3000 ms before the wrap and the clock 100 ms after it,
the test is false although 3100 ms have passed. -/
theorem timedOut_wraps :
    (4294966296 < 2 ^ 32 ∧ 4294966796 < 2 ^ 32
      ∧ timedOut 4294966796 4294966296 = true
      ∧ ulongSub 4294966796 4294966296 = 500)
    ∧ (4294964296 < 2 ^ 32
      ∧ timedOut 100 4294964296 = false
      ∧ ulongSub 100 4294964296 = 3100) := by
  decide

/-! ## Command loop of a client -/

theorem process_cmd_client_rx (cfg : Config) (now : Nat) (client : Client) (c d : Nat)
    (s : State) (k : Client) :
    ((process_cmd cfg now client c d s).clients k).rx = (s.clients k).rx
    ∧ ((process_cmd cfg now client c d s).clients k).stopped = (s.clients k).stopped := by
  have hsend : ∀ x y, ((send_res client x y s).clients k).rx = (s.clients k).rx
      ∧ ((send_res client x y s).clients k).stopped = (s.clients k).stopped := by
    intro x y
    by_cases hk : k = client
    · subst hk
      simp [send_res, State.setClient, WiFiClient.write]
    · simp [send_res, State.setClient, Function.update_noteq hk]
  unfold process_cmd
  split_ifs
  · exact hsend _ _
  · exact ⟨rfl, rfl⟩
  · exact hsend _ _
  · exact ⟨rfl, rfl⟩
  · exact ⟨rfl, rfl⟩
  · exact ⟨rfl, rfl⟩
  · exact ⟨rfl, rfl⟩

theorem process_cmd_available (cfg : Config) (now : Nat) (client : Client) (c d : Nat)
    (s : State) :
    ((process_cmd cfg now client c d s).clients client).available
      = (s.clients client).available := by
  have h := process_cmd_client_rx cfg now client c d s client
  simp [WiFiClient.available, h.1, h.2]

/-- A call of `read_cmd` with something available leaves less available. -/
theorem read_cmd_available_lt (client : Client) (s : State)
    (h : (s.clients client).available ≠ 0) :
    ((read_cmd client s).2.clients client).available < (s.clients client).available := by
  have hstop : (s.clients client).stopped = false := by
    cases hs : (s.clients client).stopped with
    | false => rfl
    | true => simp [WiFiClient.available, hs] at h
  cases hrx : (s.clients client).rx with
  | nil => simp [WiFiClient.available, hstop, hrx] at h
  | cons b rest =>
    have hav : (s.clients client).available = rest.length + 1 := by
      simp [WiFiClient.available, hstop, hrx]
    rw [hav]
    by_cases h1 : b < 128
    · simp [read_cmd, WiFiClient.read, hrx, h1, WiFiClient.available, State.setClient, hstop]
    · by_cases h2 : b < 192
      · simp [read_cmd, WiFiClient.read, hrx, h1, h2, WiFiClient.available, State.setClient,
          WiFiClient.stop, WiFiClient.write]
      · cases rest with
        | nil =>
          simp [read_cmd, WiFiClient.read, hrx, h1, h2, WiFiClient.available, State.setClient,
            WiFiClient.stop, WiFiClient.write]
        | cons b2 rest2 =>
          by_cases h3 : b2 &&& 192 = 128
          · simp [read_cmd, WiFiClient.read, hrx, h1, h2, h3, WiFiClient.available,
              State.setClient, hstop]
            omega
          · simp [read_cmd, WiFiClient.read, hrx, h1, h2, h3, WiFiClient.available,
              State.setClient, WiFiClient.stop, WiFiClient.write]

theorem handleLoop_exits (cfg : Config) (clock : Nat → Nat) (client : Client) :
    ∀ (fuel i : Nat) (s : State), (s.clients client).available ≤ fuel →
      ((handleLoop cfg clock client fuel i s).clients client).available = 0 := by
  intro fuel
  induction fuel with
  | zero =>
    intro i s h
    simpa [handleLoop] using h
  | succ fuel ih =>
    intro i s h
    rw [handleLoop]
    split_ifs with hav
    · have hlt := read_cmd_available_lt client s hav
      split
      · rename_i data s1 hread
        rw [hread] at hlt
        apply ih
        rw [process_cmd_available]
        simp only at hlt
        omega
      · rename_i s1 hread
        rw [hread] at hlt
        apply ih
        simp only at hlt
        omega
    · simpa using hav

/-- The loop of `handleEnhClient` ends because nothing is available any more:
the bound on the iterations in `handleEnhClient` never cuts it short. -/
theorem handleEnhClient_exits (cfg : Config) (clock : Nat → Nat) (client : Client) (s : State) :
    ((handleEnhClient cfg clock client s).clients client).available = 0 := by
  apply handleLoop_exits
  unfold WiFiClient.available
  split_ifs <;> omega

theorem handleLoop_send (cfg : Config) (clock : Nat → Nat) (client : Client) :
    ∀ (bytes : List Nat) (fuel i : Nat) (s : State),
      (s.clients client).rx = bytes → (s.clients client).stopped = false →
      (∀ b ∈ bytes, b < 0x80) → bytes.length ≤ fuel →
      handleLoop cfg clock client fuel i s
        = { s with
            serial_tx := s.serial_tx ++ bytes
            clients := Function.update s.clients client { s.clients client with rx := [] } } := by
  intro bytes
  induction bytes with
  | nil =>
    intro fuel i s hrx hstop _ _
    have hw : ({ s.clients client with rx := [] } : WiFiClient) = s.clients client := by
      cases hc : s.clients client
      simp_all
    have hav : (s.clients client).available = 0 := by simp [WiFiClient.available, hrx]
    cases fuel with
    | zero => simp [handleLoop, hw]
    | succ fuel => simp [handleLoop, hav, hw]
  | cons b rest ih =>
    intro fuel i s hrx hstop hlow hfuel
    obtain ⟨m, rfl⟩ : ∃ m, fuel = m + 1 := ⟨fuel - 1, by simp at hfuel; omega⟩
    have hb : b < 128 := hlow b (by simp)
    have hav : (s.clients client).available ≠ 0 := by
      simp [WiFiClient.available, hrx, hstop]
    have hread : read_cmd client s
        = (some (CMD_SEND, b), s.setClient client { s.clients client with rx := rest }) := by
      simp [read_cmd, WiFiClient.read, hrx, hb]
    rw [handleLoop, if_pos hav, hread]
    simp only []
    have hproc : process_cmd cfg (clock i) client CMD_SEND b
        (s.setClient client { s.clients client with rx := rest })
        = { s with
            serial_tx := s.serial_tx ++ [b]
            clients := Function.update s.clients client { s.clients client with rx := rest } } := by
      simp [process_cmd, CMD_SEND, CMD_INIT, CMD_START, State.setClient]
    rw [hproc, ih m (i + 1) _ (by simp) (by simp [hstop])
      (fun x hx => hlow x (by simp [hx])) (by simp at hfuel; omega)]
    simp

/-- C16: when the bytes pending on a connected client are all below `0x80`,
`handleEnhClient` appends exactly these bytes, in their order, to what was
written to the bus, and leaves nothing pending; nothing else changes: nothing
is written to the client, it is not stopped, and the arbitration session is as
before. -/
theorem handleEnhClient_passthrough (cfg : Config) (clock : Nat → Nat) (client : Client)
    (s : State) (bytes : List Nat) (hrx : (s.clients client).rx = bytes)
    (hopen : (s.clients client).stopped = false) (hlow : ∀ b ∈ bytes, b < 0x80) :
    handleEnhClient cfg clock client s
      = { s with
          serial_tx := s.serial_tx ++ bytes
          clients := Function.update s.clients client { s.clients client with rx := [] } } := by
  unfold handleEnhClient
  exact handleLoop_send cfg clock client bytes _ 0 s hrx hopen hlow (by rw [hrx])

/-- Witness of `handleEnhClient_passthrough`: the single pending byte `0x10`
is forwarded to the bus. -/
theorem handleEnhClient_passthrough_witness :
    handleEnhClient sampleConfig (fun _ => 100) 1 (pendingOnOne [0x10])
      = { pendingOnOne [0x10] with
          serial_tx := (pendingOnOne [0x10]).serial_tx ++ [0x10]
          clients := Function.update (pendingOnOne [0x10]).clients 1
            { (pendingOnOne [0x10]).clients 1 with rx := [] } } :=
  handleEnhClient_passthrough sampleConfig (fun _ => 100) 1 (pendingOnOne [0x10]) [0x10]
    (by simp [pendingOnOne, State.setClient]) (by simp [pendingOnOne, State.setClient, quietClient])
    (by decide)

end Enhanced
